import Mathlib

/-
Verification of the PennyLane `expt.tensornet` device
(`pennylane/plugins/expt_tensornet.py`, class `TensorNetwork`).

The device keeps a quantum state as a tensor-network node ("State Register"),
applies gates by contracting operator nodes into it, and computes expectation
values, variances and samples via bra-ket contractions.

Embedding conventions:
 * complex double precision amplitudes are embedded as `ℂ`;
 * a tensor whose legs all have dimension 2 is a function `(Nat → Fin 2) → ℂ`
   together with a separately tracked rank (only the first `rank` coordinates
   of the index function are meaningful);
 * the external `tensornetwork` graph library (not part of this repository's
   sources) is modelled from the spec, section 4.1: nodes live in an
   append-only arena addressed by stable indices, `connect` requires both legs
   to be dangling, and a contraction consumes every edge between the two nodes
   and yields the standard Einstein-summation value, independently of the
   pairwise contraction order; the numeric result of each contraction pattern
   used by the device is therefore written directly as the corresponding
   Einstein sum;
 * fallible Python code (raised exceptions) becomes `Except`; the error value
   of `apply` also carries the device state at raise time, because one claim
   is about the state a failed call leaves behind.
-/

namespace TN

/-- Tensors over qubit legs: a map from leg assignments to complex amplitudes.
Only the first `rank` coordinates of the index function are meaningful; the
rank is tracked separately by the node holding the tensor. -/
def CTensor : Type := (Nat → Fin 2) → ℂ

/-- Dense complex matrices, indexed by row and column; the dimension is
tracked separately (entries outside the dimension are irrelevant). -/
def CMatrix : Type := Nat → Nat → ℂ

/-- Big-endian (C-order) row-major index of a k-bit string, exactly the index
arithmetic `np.reshape` uses when flattening a `[2]*k` shape. -/
def natOfBits (k : Nat) (g : Nat → Fin 2) : Nat :=
  (List.range k).foldl (fun acc t => 2 * acc + (g t).val) 0

/-- Extend an assignment of `n` legs to a total assignment (padding with 0). -/
def pad (n : Nat) (f : Fin n → Fin 2) : Nat → Fin 2 :=
  fun i => if h : i < n then f ⟨i, h⟩ else 0

/-- Build a matrix from a list of rows (missing entries are 0). -/
def mkMat (rows : List (List ℂ)) : CMatrix :=
  fun i j => (rows.getD i []).getD j 0

/-- Matrix product of two `dim × dim` matrices (numpy `@`). -/
noncomputable def matMul (dim : Nat) (A B : CMatrix) : CMatrix :=
  fun i j => ∑ l : Fin dim, A i l * B l j

/-- Reshape of a `2^k × 2^k` matrix into a `[2]*2k` tensor, output legs first,
then input legs (the convention stated in `TensorNetwork.ev`). -/
def reshapeMat (k : Nat) (M : CMatrix) : CTensor :=
  fun g => M (natOfBits k g) (natOfBits k (fun t => g (k + t)))

/-- Reshape of a length-`2^n` vector into a `[2]*n` tensor
(`QubitStateVector` preparation). -/
def reshapeVec (v : List ℂ) (n : Nat) : CTensor :=
  fun g => v.getD (natOfBits n g) 0

/-- Tensor produced by `TensorNetwork._create_basis_state`: a zeros array of
rank `len(wires)` after the assignment `state_node[tuple(state)] = 1`.  When
the bit-array is shorter than the rank this is numpy partial indexing: the
whole subarray selected by the first `len(state)` coordinates is set to 1. -/
def basisTensor (bs : List Int) : CTensor :=
  fun g => if (List.range bs.length).all (fun i => ((g i).val : Int) == bs.getD i 0) then 1 else 0

/-- Numerical tolerance from the module header (`tolerance = 1e-10`). -/
noncomputable def tolerance : ℝ := 1 / 10 ^ 10

/- ======================================================================
Operator matrices.

Modelled from the spec: the gate/observable name-to-matrix resolver lives in
the external module `pennylane.plugins.default_qubit`, which is not among the
sources; the spec (section 6) specifies it as a pure function
`(operation_name, parameter_tuple) -> dense complex matrix of shape
[2^k, 2^k]`, failing on unknown names.  The standard matrices for the fixed
gate set of `_operation_map` / `_observable_map` are written out below.
Numerical validation performed inside the external resolver (unitarity of a
`QubitUnitary` parameter, hermiticity of a `Hermitian` parameter) is not
modelled; no claim depends on it.
====================================================================== -/

/-- Parameter values that can appear in a Python parameter tuple: real
scalars, 1-D complex vectors, integer arrays, and matrices. -/
inductive Param where
  | r (x : ℝ)
  | vec (v : List ℂ)
  | bits (bs : List Int)
  | m (rows : List (List ℂ))

def Im2 : CMatrix := mkMat [[1, 0], [0, 1]]

def Xm : CMatrix := mkMat [[0, 1], [1, 0]]

def Ym : CMatrix := mkMat [[0, -Complex.I], [Complex.I, 0]]

def Zm : CMatrix := mkMat [[1, 0], [0, -1]]

noncomputable def Hm : CMatrix :=
  mkMat [[1 / Real.sqrt 2, 1 / Real.sqrt 2], [1 / Real.sqrt 2, -(1 / Real.sqrt 2 : ℝ)]]

def Sm : CMatrix := mkMat [[1, 0], [0, Complex.I]]

noncomputable def Tm : CMatrix :=
  mkMat [[1, 0], [0, Complex.exp (Complex.I * (Real.pi / 4 : ℝ))]]

def CNOTm : CMatrix :=
  mkMat [[1, 0, 0, 0], [0, 1, 0, 0], [0, 0, 0, 1], [0, 0, 1, 0]]

def SWAPm : CMatrix :=
  mkMat [[1, 0, 0, 0], [0, 0, 1, 0], [0, 1, 0, 0], [0, 0, 0, 1]]

def CZm : CMatrix :=
  mkMat [[1, 0, 0, 0], [0, 1, 0, 0], [0, 0, 1, 0], [0, 0, 0, -1]]

/-- 8×8 permutation matrix swapping basis states `a` and `b`. -/
def permSwap8 (a b : Nat) : CMatrix :=
  fun i j =>
    if i = a then (if j = b then 1 else 0)
    else if i = b then (if j = a then 1 else 0)
    else if i = j ∧ i < 8 then 1 else 0

/-- CSWAP: controlled swap, exchanging |101⟩ and |110⟩. -/
def CSWAPm : CMatrix := permSwap8 5 6

/-- Toffoli: doubly-controlled NOT, exchanging |110⟩ and |111⟩. -/
def Toffolim : CMatrix := permSwap8 6 7

noncomputable def Rphi (phi : ℝ) : CMatrix :=
  mkMat [[1, 0], [0, Complex.exp (Complex.I * (phi : ℝ))]]

noncomputable def Rotx (theta : ℝ) : CMatrix :=
  mkMat [[Real.cos (theta / 2), -Complex.I * Real.sin (theta / 2)],
         [-Complex.I * Real.sin (theta / 2), Real.cos (theta / 2)]]

noncomputable def Roty (theta : ℝ) : CMatrix :=
  mkMat [[Real.cos (theta / 2), -(Real.sin (theta / 2) : ℝ)],
         [Real.sin (theta / 2), Real.cos (theta / 2)]]

noncomputable def Rotz (theta : ℝ) : CMatrix :=
  mkMat [[Complex.exp (-Complex.I * (theta / 2 : ℝ)), 0],
         [0, Complex.exp (Complex.I * (theta / 2 : ℝ))]]

noncomputable def Rot3 (a b c : ℝ) : CMatrix :=
  matMul 2 (Rotz c) (matMul 2 (Roty b) (Rotz a))

/-- Embed a 2×2 matrix as the lower-right block of a 4×4 controlled gate. -/
def ctrl2 (M : CMatrix) : CMatrix :=
  fun i j =>
    if i < 2 ∧ j < 2 then (if i = j then 1 else 0)
    else if 2 ≤ i ∧ i < 4 ∧ 2 ≤ j ∧ j < 4 then M (i - 2) (j - 2)
    else 0

/-- Resolver for `{**_operation_map, **_observable_map}`, merged exactly as in
`TensorNetwork._get_operator_matrix`.  Returns the matrix dimension together
with the matrix.  `none` covers a dictionary miss (KeyError), a non-callable
`None` entry (`BasisState`, `QubitStateVector`), and a parameter tuple the
resolved callable cannot accept (TypeError); non-callable fixed matrices
ignore the parameter tuple, as `A(*par)` is never evaluated for them. -/
noncomputable def getOperatorMatrix (operation : String) (par : List Param) : Option (Nat × CMatrix) :=
  match operation, par with
  | "QubitUnitary", [.m rows] => some (rows.length, mkMat rows)
  | "PauliX", _ => some (2, Xm)
  | "PauliY", _ => some (2, Ym)
  | "PauliZ", _ => some (2, Zm)
  | "Hadamard", _ => some (2, Hm)
  | "S", _ => some (2, Sm)
  | "T", _ => some (2, Tm)
  | "CNOT", _ => some (4, CNOTm)
  | "SWAP", _ => some (4, SWAPm)
  | "CSWAP", _ => some (8, CSWAPm)
  | "Toffoli", _ => some (8, Toffolim)
  | "CZ", _ => some (4, CZm)
  | "PhaseShift", [.r phi] => some (2, Rphi phi)
  | "RX", [.r theta] => some (2, Rotx theta)
  | "RY", [.r theta] => some (2, Roty theta)
  | "RZ", [.r theta] => some (2, Rotz theta)
  | "Rot", [.r a, .r b, .r c] => some (2, Rot3 a b c)
  | "CRX", [.r theta] => some (4, ctrl2 (Rotx theta))
  | "CRY", [.r theta] => some (4, ctrl2 (Roty theta))
  | "CRZ", [.r theta] => some (4, ctrl2 (Rotz theta))
  | "CRot", [.r a, .r b, .r c] => some (4, ctrl2 (Rot3 a b c))
  | "Hermitian", [.m rows] => some (rows.length, mkMat rows)
  | "Identity", _ => some (2, Im2)
  | _, _ => none

/-- Modelled from the spec: `spectral_decomposition` is imported from the
external `default_qubit` module (an `np.linalg.eigh` eigendecomposition,
returning one (eigenvalue, rank-one projector) pair per eigenvector).  The
spec, section 4.4, specifies it only through this interface.  The embedding
returns the diagonal entries with the matching coordinate projectors, which
is the exact decomposition for diagonal Hermitian matrices; the general
eigensolver is outside the embedded sources, and no claim depends on the
numeric content of the decomposition, only on its (eigenvalue, projector)
list structure. -/
def spectralDecomp (dim : Nat) (M : CMatrix) : List (ℝ × CMatrix) :=
  (List.range dim).map
    (fun i => ((M i i).re, fun a b => if a = i then (if b = i then 1 else 0) else (0 : ℂ)))

/-- Cartesian product of lists in lexicographic order, exactly
`itertools.product` (rightmost factor varies fastest). -/
def listProd {α : Type} : List (List α) → List (List α)
  | [] => [[]]
  | l :: rest => (l.map (fun x => (listProd rest).map (fun t => x :: t))).flatten

/- ======================================================================
Tensor node/edge graph and device state.

Modelled from the spec, section 4.1 and section 9: nodes are kept in an
append-only arena addressed by stable integer handles, an edge is a pair of
(handle, leg-index) endpoints, `connect` requires both legs dangling.  The
device fields mirror `TensorNetwork.__init__` / `reset`:
`nodes` is the `self._nodes` bookkeeping list (handles of nodes the device
registered via `_add_node`), `edges` is the append-only `self._edges`
bookkeeping list, `live` is the set of currently connected edges of the
underlying graph (edges are removed from it when a contraction consumes
them), `state_node` is the handle of the State Register and `free_edges`
is the per-wire dangling-leg table.
====================================================================== -/

/-- A graph node: a tensor with its rank and a diagnostic name. -/
structure GNode where
  rank : Nat
  tensor : CTensor
  name : String

/-- A leg: (node handle, leg index). -/
abbrev Leg := Nat × Nat

/-- A connected edge: its two leg endpoints. -/
abbrev Conn := Leg × Leg

/-- Python exceptions raised by the device or the libraries it calls. -/
inductive PyErr where
  | keyErr                  -- unknown operation name (resolver miss)
  | invalidStateLength      -- "State vector must be of length 2**wires."
  | invalidBasisState       -- "BasisState parameter must be an array of 0 or 1 ..."
  | unsupportedWireSubset   -- "... can apply (QubitStateVector|BasisState) only to all of the wires"
  | reshapeErr              -- numpy reshape size mismatch
  | legAlreadyConnected     -- tn.connect on a non-dangling leg
  | indexErr                -- out-of-range leg / index access
  | typeErr                 -- e.g. len(None) inside _create_basis_state
  deriving DecidableEq, Repr

structure Device where
  num_wires : Nat
  shots : Nat
  arena : List GNode
  nodes : List Nat
  edges : List Conn
  live : List Conn
  state_node : Nat
  free_edges : List Leg

def defaultNode : GNode := ⟨0, fun _ => 0, ""⟩

/-- The tensor of the State Register node (the `_state` property). -/
def stateTensor (d : Device) : CTensor :=
  (d.arena.getD d.state_node defaultNode).tensor

/-- The rank of the State Register node. -/
def stateRank (d : Device) : Nat :=
  (d.arena.getD d.state_node defaultNode).rank

/-- A leg is dangling when no currently live edge uses it. -/
def danglingB (live : List Conn) (l : Leg) : Bool :=
  live.all (fun c => !(c.1 == l) && !(c.2 == l))

/-- `_add_node` on a raw tensor: wrap it as a new node, append it to the
arena, and record its handle in the `self._nodes` bookkeeping list. -/
def addNodeT (d : Device) (rank : Nat) (T : CTensor) (nm : String) : Device × Nat :=
  ({ d with arena := d.arena ++ [⟨rank, T, nm⟩], nodes := d.nodes ++ [d.arena.length] },
   d.arena.length)

/-- `_add_node` on an existing `tn.Node`: the node is not copied; it is
renamed in place (`A.set_name`) and its handle is appended to `self._nodes`. -/
def addNodeRef (d : Device) (ref : Nat) (nm : String) : Device :=
  { d with
    arena := match d.arena.get? ref with
      | some nd => d.arena.set ref ⟨nd.rank, nd.tensor, nm⟩
      | none => d.arena
    nodes := d.nodes ++ [ref] }

/-- `_add_edge`, i.e. `tn.connect(node1[idx1], node2[idx2])` followed by the
`self._edges` bookkeeping append: both leg indices must exist on their nodes
(IndexError otherwise) and both legs must be dangling and distinct
(ValueError otherwise). -/
def connectE (d : Device) (l1 l2 : Leg) : Except PyErr Device :=
  match d.arena.get? l1.1, d.arena.get? l2.1 with
  | some n1, some n2 =>
    if l1.2 < n1.rank then
      if l2.2 < n2.rank then
        if l1 ≠ l2 ∧ danglingB d.live l1 ∧ danglingB d.live l2 then
          .ok { d with live := d.live ++ [(l1, l2)], edges := d.edges ++ [(l1, l2)] }
        else .error .legAlreadyConnected
      else .error .indexErr
    else .error .indexErr
  | _, _ => .error .indexErr

/-- Connect a list of edges in order, stopping at the first failure. -/
def foldConnect (d : Device) : List Conn → Except PyErr Device
  | [] => .ok d
  | c :: rest =>
    match connectE d c.1 c.2 with
    | .error e => .error e
    | .ok d1 => foldConnect d1 rest

/-- Overwrite the tensor of the State Register node in place
(`self._state_node.tensor = ...`). -/
def setStateTensor (d : Device) (T : CTensor) : Device :=
  { d with
    arena := match d.arena.get? d.state_node with
      | some nd => d.arena.set d.state_node ⟨nd.rank, T, nd.name⟩
      | none => d.arena }

/-- `reset`: clear the bookkeeping lists, build the all-zero basis state of
rank `num_wires` and register it as the new State Register, and point every
wire's free edge at the corresponding leg of that node. -/
def reset (d : Device) : Device :=
  let withBk := { d with nodes := ([] : List Nat), edges := ([] : List Conn) }
  let dn := addNodeT withBk d.num_wires (basisTensor (List.replicate d.num_wires 0)) "AllZeroState"
  { dn.1 with
    state_node := dn.2
    free_edges := (List.range d.num_wires).map (fun w => (dn.2, w)) }

/-- A fresh device, as built by `__init__` (which ends with `reset`). -/
def initDevice (wires shots : Nat) : Device :=
  reset ⟨wires, shots, [], [], [], [], 0, []⟩

/- ======================================================================
The Operator Applicator (`TensorNetwork.apply`).
====================================================================== -/

/-- Coerce `np.array(par[0], dtype=complex)` to a 1-D vector: complex and
integer 1-D arrays qualify; scalars have ndim 0 and matrices ndim 2. -/
def qsvVec : Param → Option (List ℂ)
  | .vec v => some v
  | .bits bs => some (bs.map (fun b => (b : ℂ)))
  | _ => none

/-- The wire-argument test both preparations share:
`wires is not None and wires != [] and list(wires) != list(range(num_wires))`
raises, so `None`, the empty list and the full ordered range pass. -/
def wiresFull (wires : Option (List Nat)) (n : Nat) : Bool :=
  match wires with
  | none => true
  | some l => l.isEmpty || l == List.range n

/-- Result of contracting the reshaped operator tensor `A` (acting on
`wires`) into the state `psi`, with the output legs ordered by wire
(`output_edge_order=self._free_edges`): the Einstein sum over the operator's
input legs, which are wired to the state legs of the acted wires. -/
noncomputable def applyGate (psi A : CTensor) (wires : List Nat) : CTensor :=
  let k := wires.length
  fun x => ∑ y : Fin k → Fin 2,
    A (fun t => if t < k then x (wires.getD t 0) else pad k y (t - k)) *
    psi (fun w =>
      let i := wires.findIdx (· == w)
      if i < k then pad k y i else x w)

/-- The edges `apply` creates: operator input leg `k+idx` to state leg `w`
for each enumerated target wire. -/
def gateConns (opRef k stRef : Nat) (wires : List Nat) : List Conn :=
  wires.enum.map (fun iw => ((opRef, k + iw.1), (stRef, iw.2)))

/-- The per-wire edge loop of `apply`: connect operator input leg `k+idx` to
the state leg for wire `w`, then point the wire's free edge at operator
output leg `idx`.  A failed `tn.connect` raises with the partially updated
device state. -/
def gateLoop (opRef k : Nat) (idx : Nat) (d : Device) :
    List Nat → Except (PyErr × Device) Device
  | [] => .ok d
  | w :: rest =>
    match connectE d (opRef, k + idx) (d.state_node, w) with
    | .error e => .error (e, d)
    | .ok d1 =>
      gateLoop opRef k (idx + 1) { d1 with free_edges := d1.free_edges.set w (opRef, idx) } rest

/-- The free-edge table as it must read when `tn.contract_between` checks
`output_edge_order`: operator output legs on the acted wires, untouched
state legs elsewhere. -/
def expectedTable (n opRef stRef : Nat) (wires : List Nat) : List Leg :=
  (List.range n).map (fun w =>
    if wires.contains w then (opRef, wires.findIdx (· == w)) else (stRef, w))

/-- `TensorNetwork.apply`.  The error value carries the device state at raise
time (the `QubitStateVector` path overwrites the register before its wire
check, so that state is observable).  In the gate path, the final
`tn.contract_between(op_node, state_node, output_edge_order=free_edges)`
consumes the freshly connected edges, appends the contraction result to the
arena (contraction results are not `_add_node`ed, so `self._nodes` does not
record them), re-targets the register handle, and leaves the free-edge table
pointing at the new node's legs in wire order; `output_edge_order` is
validated against the dangling legs of the contraction pair (here in the
wire order the device maintains, the only configuration it ever builds). -/
noncomputable def apply (d : Device) (operation : String) (wires : Option (List Nat))
    (par : List Param) : Except (PyErr × Device) Device :=
  if operation = "QubitStateVector" then
    match par.head? with
    | none => .error (.indexErr, d)
    | some p =>
      match qsvVec p with
      | none => .error (.invalidStateLength, d)
      | some v =>
        if v.length = 2 ^ d.num_wires then
          let d1 := setStateTensor d (reshapeVec v d.num_wires)
          if wiresFull wires d.num_wires then .ok d1
          else .error (.unsupportedWireSubset, d1)
        else .error (.invalidStateLength, d)
  else if operation = "BasisState" then
    match par.head? with
    | none => .error (.indexErr, d)
    | some (.bits bs) =>
      if bs.length = 0 ∨ d.num_wires < bs.length ∨ ¬ bs.all (fun b => b == 0 || b == 1) then
        .error (.invalidBasisState, d)
      else if ¬ wiresFull wires d.num_wires then
        .error (.unsupportedWireSubset, d)
      else
        match wires with
        | none => .error (.typeErr, d)
        | some l =>
          if l.length < bs.length then .error (.indexErr, d)
          else .ok (setStateTensor d (basisTensor bs))
    | some _ => .error (.invalidBasisState, d)
  else
    match getOperatorMatrix operation par with
    | none => .error (.keyErr, d)
    | some dm =>
      match wires with
      | none => .error (.typeErr, d)
      | some ws =>
        let k := ws.length
        if dm.1 = 2 ^ k then
          let A := reshapeMat k dm.2
          let dn := addNodeT d (2 * k) A operation
          match gateLoop dn.2 k 0 dn.1 ws with
          | .error e => .error e
          | .ok d2 =>
            if ws ≠ [] ∧ stateRank d2 = d2.num_wires ∧
                d2.free_edges = expectedTable d2.num_wires dn.2 d2.state_node ws then
              let newRef := d2.arena.length
              .ok { d2 with
                arena := d2.arena ++ [⟨d2.num_wires, applyGate (stateTensor d2) A ws, operation⟩]
                live := d2.live.filter (fun c => !((gateConns dn.2 k d2.state_node ws).contains c))
                state_node := newRef
                free_edges := (List.range d2.num_wires).map (fun w => (newRef, w)) }
            else .error (.reshapeErr, d2)
        else .error (.reshapeErr, d)

/- ======================================================================
The Expectation Engine (`TensorNetwork.ev`) and the measurement surface.
====================================================================== -/

/-- The edges `ev` creates, in creation order: for each observable node and
each enumerated wire, input leg `len+idx` to the ket leg and the bra leg to
output leg `idx`; then bra to ket directly on every unmeasured wire. -/
def evConns (n ket bra : Nat) (rws : List (Nat × List Nat)) : List Conn :=
  (rws.map (fun rw =>
    (rw.2.enum.map (fun iw =>
      [((rw.1, rw.2.length + iw.1), (ket, iw.2)), ((bra, iw.2), (rw.1, iw.1))])).flatten)).flatten
  ++ ((List.range n).filter (fun w => !((rws.map Prod.snd).flatten.contains w))).map
      (fun w => ((bra, w), (ket, w)))

/-- The scalar the fully contracted bra-ket sandwich evaluates to: the
Einstein sum over all bra and ket leg assignments, with one factor per
observable node (output legs read from the bra side, input legs from the ket
side) and an identification factor for every unmeasured wire.  By the spec,
section 4.1, the pairwise contraction order does not change this value. -/
noncomputable def evRaw (n : Nat) (psi : CTensor) (obs : List (CTensor × List Nat)) : ℂ :=
  let meas := (obs.map Prod.snd).flatten
  ∑ b : Fin n → Fin 2, ∑ k : Fin n → Fin 2,
    star (psi (pad n b)) * psi (pad n k) *
    (obs.map (fun ow =>
      ow.1 (fun t => if t < ow.2.length then pad n b (ow.2.getD t 0)
                     else pad n k (ow.2.getD (t - ow.2.length) 0)))).prod *
    (((List.range n).filter (fun w => !(meas.contains w))).map
      (fun w => if pad n b w = pad n k w then (1 : ℂ) else 0)).prod

/-- Result of one `ev` call: the returned real part, whether the
imaginary-part tolerance diagnostic fired, and the device afterwards. -/
structure EvOut where
  value : ℝ
  warned : Prop
  dev : Device

/-- `TensorNetwork.ev`.  The ket is the State Register node itself passed
through `_add_node` (renamed, not copied); the bra is a fresh node holding
the complex conjugate of the same data.  After wiring, the contractions
consume every edge just created and produce a scalar; if its imaginary part
exceeds `tolerance` in absolute value a `RuntimeWarning` is emitted, and the
real part is returned in every case. -/
noncomputable def ev (d : Device) (obsRefs : List Nat) (wires : List (List Nat)) :
    Except PyErr EvOut :=
  let n := d.num_wires
  let ketRef := d.state_node
  let d1 := addNodeRef d ketRef "Ket"
  let psi := stateTensor d1
  let dn := addNodeT d1 n (fun g => star (psi g)) "Bra"
  let conns := evConns n ketRef dn.2 (obsRefs.zip wires)
  match foldConnect dn.1 conns with
  | .error e => .error e
  | .ok d3 =>
    let value := evRaw n psi ((obsRefs.zip wires).map
      (fun rw => ((d3.arena.getD rw.1 defaultNode).tensor, rw.2)))
    .ok ⟨value.re, tolerance < |value.im|,
      { d3 with live := d3.live.filter (fun c => !(conns.contains c)) }⟩

/-- Zip three lists, truncating at the shortest (Python `zip`). -/
def zip3 {α β γ : Type} : List α → List β → List γ → List (α × β × γ)
  | a :: as, b :: bs, c :: cs => (a, b, c) :: zip3 as bs cs
  | _, _, _ => []

/-- The observable-resolution loop shared by the measurement functions:
`[self._get_operator_matrix(o, p) for o, p in zip(...)]`. -/
noncomputable def resolveAll : List (String × List Param) → Except PyErr (List (Nat × CMatrix))
  | [] => .ok []
  | t :: rest =>
    match getOperatorMatrix t.1 t.2 with
    | none => .error .keyErr
    | some dm =>
      match resolveAll rest with
      | .error e => .error e
      | .ok ms => .ok (dm :: ms)

/-- Reshape a list of (dim, matrix) pairs to `[2]*2k` tensors against their
wire lists (numpy raises when `dim ≠ 2^len(wires)`). -/
noncomputable def reshapeAll : List ((Nat × CMatrix) × List Nat) →
    Except PyErr (List (CTensor × List Nat))
  | [] => .ok []
  | t :: rest =>
    if t.1.1 = 2 ^ t.2.length then
      match reshapeAll rest with
      | .error e => .error e
      | .ok ts => .ok ((reshapeMat t.2.length t.1.2, t.2) :: ts)
    else .error .reshapeErr

/-- `create_nodes_from_tensors`: register each tensor (rank `2*len(wires)`)
as a node named after its observable, returning the handles. -/
def addNodesL (d : Device) : List ((CTensor × List Nat) × String) → Device × List Nat
  | [] => (d, [])
  | t :: rest =>
    let dn := addNodeT d (2 * t.1.2.length) t.1.1 t.2
    let dr := addNodesL dn.1 rest
    (dr.1, dn.2 :: dr.2)

/-- Body of `TensorNetwork.expval` after list normalization. -/
noncomputable def expvalCore (d : Device) (os : List String) (ws : List (List Nat))
    (ps : List (List Param)) : Except PyErr EvOut :=
  match resolveAll (os.zip ps) with
  | .error e => .error e
  | .ok ms =>
    match reshapeAll (ms.zip ws) with
    | .error e => .error e
    | .ok ts =>
      let dr := addNodesL d (ts.zip os)
      ev dr.1 dr.2 ws

/-- Body of `TensorNetwork.var` after list normalization: resolve the
matrices once, reshape both `A` and the matrix product `A@A` identically,
register the plain nodes and then the squared nodes, and return
`ev(squares) - ev(plain)**2` (the two `ev` calls run in this order). -/
noncomputable def varCore (d : Device) (os : List String) (ws : List (List Nat))
    (ps : List (List Param)) : Except PyErr (ℝ × Device) :=
  match resolveAll (os.zip ps) with
  | .error e => .error e
  | .ok ms =>
    match reshapeAll (ms.zip ws) with
    | .error e => .error e
    | .ok ts =>
      match reshapeAll ((ms.map (fun dm => (dm.1, matMul dm.1 dm.2 dm.2))).zip ws) with
      | .error e => .error e
      | .ok ts2 =>
        let dr := addNodesL d (ts.zip os)
        let dr2 := addNodesL dr.1 (ts2.zip os)
        match ev dr2.1 dr2.2 ws with
        | .error e => .error e
        | .ok o1 =>
          match ev o1.dev dr.2 ws with
          | .error e => .error e
          | .ok o2 => .ok (o1.value - o2.value ^ 2, o2.dev)

/-- Modelled from the spec: `np.random.choice(outcomes, shots, p=probs)` from
the external numpy library draws `shots` independent samples from `outcomes`
weighted by `p` (spec section 4.4, step 4).  The randomness source is
abstracted as the index stream `picks`; `p` drives only that external
randomness, and numpy's own validation of `p` as a probability distribution
is outside the embedded sources. -/
def randomChoice (outcomes : List ℝ) (shots : Nat) (p : List ℝ) (picks : Nat → Nat) : List ℝ :=
  (List.range shots).map (fun t => outcomes.getD (picks t) 0)

/-- The per-joint-outcome probability loop of `TensorNetwork.sample`: for
each tuple of (dim, projector, wires) choices, register one node per
projector and make a single `ev` call on all of them together. -/
noncomputable def sampleProbsLoop (d : Device) :
    List (List ((Nat × CMatrix) × List Nat)) → Except PyErr (List ℝ × Device)
  | [] => .ok ([], d)
  | projs :: rest =>
    match reshapeAll projs with
    | .error e => .error e
    | .ok ts =>
      let dr := addNodesL d (ts.map (fun t => (t, "UnnamedNode")))
      match ev dr.1 dr.2 (projs.map Prod.snd) with
      | .error e => .error e
      | .ok o1 =>
        match sampleProbsLoop o1.dev rest with
        | .error e => .error e
        | .ok pr => .ok (o1.value :: pr.1, pr.2)

/-- Body of `TensorNetwork.sample` after list normalization: spectrally
decompose each observable, form the joint outcome space as the Cartesian
product of the per-observable (eigenvalue, projector) choices, compute each
joint outcome's probability with one `ev` call on its projectors, and draw
`self.shots` samples from the joint outcome values. -/
noncomputable def sampleCore (d : Device) (os : List String) (ws : List (List Nat))
    (ps : List (List Param)) (picks : Nat → Nat) : Except PyErr (List ℝ × Device) :=
  match resolveAll (os.zip ps) with
  | .error e => .error e
  | .ok ms =>
    let decomps := ms.map (fun dm => (dm.1, spectralDecomp dm.1 dm.2))
    let eigs := decomps.map (fun t => t.2.map Prod.fst)
    let pws := (decomps.zip ws).map (fun t => t.1.2.map (fun ep => ((t.1.1, ep.2), t.2)))
    match sampleProbsLoop d (listProd pws) with
    | .error e => .error e
    | .ok pr =>
      .ok (randomChoice ((listProd eigs).map (fun l => l.prod)) d.shots pr.1 picks, pr.2)

/-- Measurement arguments: a bare observable name or a list of observables
(`isinstance(observable, list)` decides which). -/
inductive MeasArg where
  | single (o : String) (w : List Nat) (p : List Param)
  | multi (os : List String) (ws : List (List Nat)) (ps : List (List Param))

/-- `TensorNetwork.expval`: a bare observable is wrapped into singleton
lists on entry. -/
noncomputable def expval (d : Device) : MeasArg → Except PyErr EvOut
  | .single o w p => expvalCore d [o] [w] [p]
  | .multi os ws ps => expvalCore d os ws ps

/-- `TensorNetwork.var`: a bare observable is wrapped into singleton lists
on entry. -/
noncomputable def var (d : Device) : MeasArg → Except PyErr (ℝ × Device)
  | .single o w p => varCore d [o] [w] [p]
  | .multi os ws ps => varCore d os ws ps

/-- `TensorNetwork.sample`: a bare observable is wrapped into singleton
lists on entry. -/
noncomputable def sample (d : Device) (a : MeasArg) (picks : Nat → Nat) :
    Except PyErr (List ℝ × Device) :=
  match a with
  | .single o w p => sampleCore d [o] [w] [p] picks
  | .multi os ws ps => sampleCore d os ws ps picks

/- ======================================================================
Basic lemmas about the graph primitives.
====================================================================== -/

theorem getD_concat_self {α : Type} (l : List α) (x a : α) :
    (l ++ [x]).getD l.length a = x := by
  simp [List.getD_eq_getElem?_getD, List.getElem?_concat_length]

theorem getD_append_lt {α : Type} (l l2 : List α) (i : Nat) (a : α) (h : i < l.length) :
    (l ++ l2).getD i a = l.getD i a := by
  simp [List.getD_eq_getElem?_getD, List.getElem?_append_left h]

theorem addNodeT_fields (d : Device) (r : Nat) (T : CTensor) (nm : String) :
    (addNodeT d r T nm).1.num_wires = d.num_wires ∧
    (addNodeT d r T nm).1.shots = d.shots ∧
    (addNodeT d r T nm).1.state_node = d.state_node ∧
    (addNodeT d r T nm).1.free_edges = d.free_edges ∧
    (addNodeT d r T nm).1.live = d.live ∧
    (addNodeT d r T nm).1.arena = d.arena ++ [⟨r, T, nm⟩] ∧
    (addNodeT d r T nm).2 = d.arena.length := by
  refine ⟨rfl, rfl, rfl, rfl, rfl, rfl, rfl⟩

theorem addNodeT_stateTensor (d : Device) (r : Nat) (T : CTensor) (nm : String)
    (h : d.state_node < d.arena.length) :
    stateTensor (addNodeT d r T nm).1 = stateTensor d := by
  unfold stateTensor addNodeT
  simp only
  rw [getD_append_lt _ _ _ _ h]

theorem addNodeT_stateRank (d : Device) (r : Nat) (T : CTensor) (nm : String)
    (h : d.state_node < d.arena.length) :
    stateRank (addNodeT d r T nm).1 = stateRank d := by
  unfold stateRank addNodeT
  simp only
  rw [getD_append_lt _ _ _ _ h]

theorem addNodeRef_fields (d : Device) (ref : Nat) (nm : String) :
    (addNodeRef d ref nm).num_wires = d.num_wires ∧
    (addNodeRef d ref nm).shots = d.shots ∧
    (addNodeRef d ref nm).state_node = d.state_node ∧
    (addNodeRef d ref nm).free_edges = d.free_edges ∧
    (addNodeRef d ref nm).live = d.live := by
  refine ⟨rfl, rfl, rfl, rfl, rfl⟩

/-- Renaming a node (`_add_node` on an existing node) changes no tensor and
no rank anywhere in the arena. -/
theorem addNodeRef_getD (d : Device) (ref : Nat) (nm : String) (i : Nat) :
    ((addNodeRef d ref nm).arena.getD i defaultNode).rank
      = (d.arena.getD i defaultNode).rank ∧
    ((addNodeRef d ref nm).arena.getD i defaultNode).tensor
      = (d.arena.getD i defaultNode).tensor := by
  unfold addNodeRef
  cases hres : d.arena.get? ref with
  | none => simp [hres]
  | some nd =>
    simp only [hres]
    have hget : d.arena[ref]? = some nd := by rw [← List.get?_eq_getElem?]; exact hres
    have hlen : ref < d.arena.length := by
      by_contra hc
      rw [List.get?_eq_none.mpr (Nat.le_of_not_lt hc)] at hres
      exact Option.noConfusion hres
    by_cases hi : ref = i
    · subst hi
      simp only [List.getD_eq_getElem?_getD, List.getElem?_set_self hlen, Option.getD_some, hget]
      exact ⟨trivial, trivial⟩
    · simp only [List.getD_eq_getElem?_getD, List.getElem?_set_ne hi]
      exact ⟨trivial, trivial⟩

theorem addNodeRef_stateTensor (d : Device) (ref : Nat) (nm : String) :
    stateTensor (addNodeRef d ref nm) = stateTensor d :=
  (addNodeRef_getD d ref nm d.state_node).2

theorem addNodeRef_stateRank (d : Device) (ref : Nat) (nm : String) :
    stateRank (addNodeRef d ref nm) = stateRank d :=
  (addNodeRef_getD d ref nm d.state_node).1

theorem addNodeRef_arena_length (d : Device) (ref : Nat) (nm : String) :
    (addNodeRef d ref nm).arena.length = d.arena.length := by
  unfold addNodeRef
  cases hres : d.arena.get? ref <;> simp [hres]

theorem connectE_ok {d : Device} {l1 l2 : Leg} {d1 : Device}
    (h : connectE d l1 l2 = .ok d1) :
    d1 = { d with live := d.live ++ [(l1, l2)], edges := d.edges ++ [(l1, l2)] } := by
  unfold connectE at h
  split at h
  · split at h
    · split at h
      · split at h
        · exact (Except.ok.inj h).symm
        · exact absurd h (by simp)
      · exact absurd h (by simp)
    · exact absurd h (by simp)
  · exact absurd h (by simp)

/-- A successful `foldConnect` only appends the requested edges to the live
set and the bookkeeping list; everything else is untouched. -/
theorem foldConnect_ok {cs : List Conn} :
    ∀ {d d2 : Device}, foldConnect d cs = .ok d2 →
    d2.arena = d.arena ∧ d2.state_node = d.state_node ∧ d2.free_edges = d.free_edges ∧
    d2.num_wires = d.num_wires ∧ d2.shots = d.shots ∧ d2.live = d.live ++ cs ∧
    d2.nodes = d.nodes := by
  induction cs with
  | nil =>
    intro d d2 h
    unfold foldConnect at h
    cases h
    simp
  | cons c rest ih =>
    intro d d2 h
    unfold foldConnect at h
    cases hc : connectE d c.1 c.2 with
    | error e => rw [hc] at h; exact absurd h (by simp)
    | ok d1 =>
      rw [hc] at h
      have h1 := connectE_ok hc
      obtain ⟨ha, hs, hf, hn, hsh, hl, hnd⟩ := ih h
      subst h1
      refine ⟨ha, hs, hf, hn, hsh, ?_, hnd⟩
      simp only at hl
      rw [hl, List.append_assoc]
      rfl

theorem filter_not_contains_self {α : Type} [BEq α] [LawfulBEq α] (cs : List α) :
    cs.filter (fun c => !(cs.contains c)) = [] := by
  apply List.filter_eq_nil_iff.mpr
  intro a ha
  simp [ha]

/- ======================================================================
Reset (claims C7 and C3).
====================================================================== -/

theorem reset_stateTensor (d : Device) :
    stateTensor (reset d) = basisTensor (List.replicate d.num_wires 0) := by
  show ((d.arena ++ [GNode.mk d.num_wires (basisTensor (List.replicate d.num_wires 0))
      "AllZeroState"]).getD d.arena.length defaultNode).tensor = _
  rw [getD_concat_self]

theorem reset_stateRank (d : Device) : stateRank (reset d) = d.num_wires := by
  show ((d.arena ++ [GNode.mk d.num_wires (basisTensor (List.replicate d.num_wires 0))
      "AllZeroState"]).getD d.arena.length defaultNode).rank = _
  rw [getD_concat_self]

theorem getD_replicate_int (n i : Nat) : (List.replicate n (0 : Int)).getD i 0 = 0 := by
  rw [List.getD_eq_getElem?_getD, List.getElem?_replicate]
  split <;> simp

/-- The `reset` tensor is the all-zero basis state: amplitude 1 at the
all-zero index and 0 everywhere else. -/
theorem basisTensor_replicate_zero (n : Nat) (g : Nat → Fin 2) :
    basisTensor (List.replicate n 0) g = if ∀ i < n, g i = 0 then 1 else 0 := by
  unfold basisTensor
  simp only [List.length_replicate]
  by_cases h : ∀ i < n, g i = 0
  · rw [if_pos, if_pos h]
    rw [List.all_eq_true]
    intro i hi
    rw [List.mem_range] at hi
    rw [h i hi, getD_replicate_int]
    rfl
  · rw [if_neg, if_neg h]
    intro hall
    apply h
    intro i hi
    rw [List.all_eq_true] at hall
    have hh := hall i (List.mem_range.mpr hi)
    rw [getD_replicate_int] at hh
    have : ((g i).val : Int) = 0 := by exact_mod_cast (beq_iff_eq.mp hh)
    exact Fin.ext (by exact_mod_cast this)

/-- C7: `reset` leaves the State Register holding exactly the all-zero
basis-state tensor of rank `num_wires` (amplitude 1 at the all-zero index, 0
elsewhere), reinitializes the node and edge bookkeeping lists (the edge list
is empty and the node list records exactly the fresh register), and is
idempotent: a second `reset` produces the identical state tensor. -/
theorem claim7_reset_allzero_idempotent (d : Device) :
    (∀ g, stateTensor (reset d) g = if ∀ i < d.num_wires, g i = 0 then 1 else 0) ∧
    stateRank (reset d) = d.num_wires ∧
    (reset d).edges = [] ∧
    (reset d).nodes = [(reset d).state_node] ∧
    (reset d).free_edges = (List.range d.num_wires).map (fun w => ((reset d).state_node, w)) ∧
    stateTensor (reset (reset d)) = stateTensor (reset d) := by
  refine ⟨?_, reset_stateRank d, rfl, rfl, rfl, ?_⟩
  · intro g
    rw [reset_stateTensor, basisTensor_replicate_zero]
  · rw [reset_stateTensor, reset_stateTensor]
    rfl

/- ======================================================================
Claim C3: the free-edge table invariant.
====================================================================== -/

/-- C3: after `reset` and after every successful non-preparation `apply`, the
free-edge table has exactly `num_wires` entries, the State Register has rank
`num_wires` (every leg having dimension 2 by the tensor representation), and
wire `w`'s entry points at leg `w` of the current State Register node, the
legs being ordered exactly as the wires. -/
theorem claim3_free_edge_invariant :
    (∀ d : Device,
      stateRank (reset d) = (reset d).num_wires ∧
      (reset d).free_edges.length = (reset d).num_wires ∧
      (reset d).free_edges
        = (List.range (reset d).num_wires).map (fun w => ((reset d).state_node, w))) ∧
    (∀ (d : Device) (op : String) (wires : Option (List Nat)) (par : List Param) (d2 : Device),
      op ≠ "QubitStateVector" → op ≠ "BasisState" →
      apply d op wires par = .ok d2 →
      stateRank d2 = d2.num_wires ∧
      d2.free_edges.length = d2.num_wires ∧
      d2.free_edges = (List.range d2.num_wires).map (fun w => (d2.state_node, w))) := by
  constructor
  · intro d
    refine ⟨reset_stateRank d, ?_, rfl⟩
    show ((List.range d.num_wires).map
      (fun w => ((reset d).state_node, w))).length = d.num_wires
    simp
  · intro d op wires par d2 hq hb h
    unfold apply at h
    rw [if_neg hq, if_neg hb] at h
    cases hm : getOperatorMatrix op par with
    | none => rw [hm] at h; exact absurd h (by simp)
    | some dm =>
      rw [hm] at h
      cases wires with
      | none => exact absurd h (by simp)
      | some ws =>
        simp only at h
        split at h
        · split at h
          · exact absurd h (by simp)
          · split at h
            · cases h
              refine ⟨?_, by simp, rfl⟩
              show ((_ ++ [_]).getD _ defaultNode).rank = _
              rw [getD_concat_self]
            · exact absurd h (by simp)
        · exact absurd h (by simp)

/-- Witness for C3: a successful `PauliX` application on a fresh one-wire
device, with the resulting invariant instance. -/
theorem claim3_witness :
    ∃ d2, apply (initDevice 1 1000) "PauliX" (some [0]) [] = .ok d2 ∧
      stateRank d2 = d2.num_wires ∧
      d2.free_edges = (List.range d2.num_wires).map (fun w => (d2.state_node, w)) := by
  refine ⟨_, rfl, ?_⟩
  have h := claim3_free_edge_invariant.2 (initDevice 1 1000) "PauliX" (some [0]) [] _
    (by decide) (by decide) rfl
  exact ⟨h.1, h.2.2⟩

/- ======================================================================
Claims C4, C5, C10: state-preparation validation.
====================================================================== -/

/-- The bit-array conditions the `BasisState` branch actually enforces. -/
def bitsOk (n : Nat) (bs : List Int) : Prop :=
  1 ≤ bs.length ∧ bs.length ≤ n ∧ ∀ b ∈ bs, b = 0 ∨ b = 1

theorem setStateTensor_stateTensor (d : Device) (T : CTensor)
    (h : d.state_node < d.arena.length) :
    stateTensor (setStateTensor d T) = T := by
  unfold stateTensor setStateTensor
  cases hres : d.arena.get? d.state_node with
  | none =>
    exfalso
    rw [List.get?_eq_none] at hres
    exact absurd h (Nat.not_lt.mpr hres)
  | some nd =>
    simp only
    rw [List.getD_eq_getElem?_getD, List.getElem?_set_self h]
    rfl

theorem bits_all_check (bs : List Int) :
    (bs.all (fun b => b == 0 || b == 1) = true) ↔ (∀ b ∈ bs, b = 0 ∨ b = 1) := by
  rw [List.all_eq_true]
  constructor
  · intro h b hb
    have := h b hb
    rcases Bool.or_eq_true_iff.mp this with h1 | h1
    · exact Or.inl (beq_iff_eq.mp h1)
    · exact Or.inr (beq_iff_eq.mp h1)
  · intro h b hb
    rcases h b hb with h1 | h1 <;> simp [h1]

/-- C4 counterexample: the claim predicts success for an empty bit-array on
the full wire range (all entries are vacuously 0 or 1 and the length 0 is at
most `num_wires`), but the code raises the invalid-basis-state error, because
its validation also rejects `len(par[0]) == 0`. -/
theorem claim4_counterexample :
    apply (initDevice 1 1000) "BasisState" (some [0]) [Param.bits []]
      = .error (.invalidBasisState, initDevice 1 1000) := rfl
@[simp] theorem isOk_ok {ε α : Type} (a : α) : (Except.ok a : Except ε α).isOk = true := rfl

@[simp] theorem isOk_error {ε α : Type} (e : ε) : (Except.error e : Except ε α).isOk = false := rfl

/-- C4 (amended): `apply('BasisState', wires, par)` succeeds exactly when the
bit-array is nonempty with every entry 0 or 1 and length at most `num_wires`
and the wire argument is the full ordered range; a malformed or empty
bit-array fails with the invalid-basis-state error; with a valid bit-array,
a wire argument other than `None`, the empty list, or the full range fails
with `UnsupportedWireSubset`, while `None` and the empty list pass that check
and fail later inside the basis-state construction with a TypeError and an
IndexError respectively. -/
theorem claim4_basis_state_conditions (d : Device) (bs : List Int)
    (wires : Option (List Nat)) :
    ((apply d "BasisState" wires [Param.bits bs]).isOk
        ↔ bitsOk d.num_wires bs ∧ wires = some (List.range d.num_wires)) ∧
    (¬ bitsOk d.num_wires bs →
      apply d "BasisState" wires [Param.bits bs] = .error (.invalidBasisState, d)) ∧
    (bitsOk d.num_wires bs →
      wires ≠ none → wires ≠ some [] → wires ≠ some (List.range d.num_wires) →
      apply d "BasisState" wires [Param.bits bs] = .error (.unsupportedWireSubset, d)) ∧
    (bitsOk d.num_wires bs → wires = none →
      apply d "BasisState" wires [Param.bits bs] = .error (.typeErr, d)) ∧
    (bitsOk d.num_wires bs → wires = some [] →
      apply d "BasisState" wires [Param.bits bs] = .error (.indexErr, d)) ∧
    (bitsOk d.num_wires bs → wires = some (List.range d.num_wires) →
      apply d "BasisState" wires [Param.bits bs] = .ok (setStateTensor d (basisTensor bs))) := by
  have hbr : ∀ l : List Nat, wiresFull (some l) d.num_wires = true ↔
      (l = [] ∨ l = List.range d.num_wires) := by
    intro l
    unfold wiresFull
    rw [Bool.or_eq_true_iff]
    constructor
    · rintro (h | h)
      · exact Or.inl (List.isEmpty_iff.mp h)
      · exact Or.inr (by exact_mod_cast (beq_iff_eq.mp h))
    · rintro (h | h)
      · exact Or.inl (by simp [h])
      · exact Or.inr (by simp [h])
  by_cases hb : bitsOk d.num_wires bs
  · obtain ⟨hb1, hb2, hb3⟩ := hb
    have hcond : ¬ (bs.length = 0 ∨ d.num_wires < bs.length ∨
        ¬ bs.all (fun b => b == 0 || b == 1) = true) := by
      push_neg
      exact ⟨by omega, hb2, (bits_all_check bs).mpr hb3⟩
    have happly : ∀ w : Option (List Nat),
        apply d "BasisState" w [Param.bits bs] =
        (if ¬ wiresFull w d.num_wires = true then
          .error (.unsupportedWireSubset, d)
        else
          match w with
          | none => .error (.typeErr, d)
          | some l =>
            if l.length < bs.length then .error (.indexErr, d)
            else .ok (setStateTensor d (basisTensor bs))) := by
      intro w
      unfold apply
      rw [if_neg (by decide), if_pos rfl]
      simp only [List.head?]
      rw [if_neg hcond]
    have hfull : wiresFull (some (List.range d.num_wires)) d.num_wires = true :=
      (hbr _).mpr (Or.inr rfl)
    have hsucc : apply d "BasisState" (some (List.range d.num_wires)) [Param.bits bs]
        = .ok (setStateTensor d (basisTensor bs)) := by
      rw [happly]
      rw [if_neg (by simp [hfull])]
      simp only [List.length_range]
      rw [if_neg (by omega)]
    refine ⟨?_, ?_, ?_, ?_, ?_, ?_⟩
    · constructor
      · intro hok
        cases wires with
        | none =>
          exfalso
          rw [happly none] at hok
          rw [if_neg (by simp [wiresFull])] at hok
          simp at hok
        | some l =>
          by_cases hl : l = List.range d.num_wires
          · exact ⟨⟨hb1, hb2, hb3⟩, by rw [hl]⟩
          · exfalso
            by_cases hle : l = []
            · subst hle
              rw [happly (some [])] at hok
              rw [if_neg (by simp [wiresFull])] at hok
              simp only [List.length_nil] at hok
              rw [if_pos (by omega)] at hok
              simp at hok
            · rw [happly (some l)] at hok
              rw [if_pos] at hok
              · simp at hok
              · simp only [Bool.not_eq_true]
                rw [Bool.eq_false_iff]
                intro hw
                rcases (hbr l).mp hw with h | h
                · exact hle h
                · exact hl h
      · rintro ⟨-, hw⟩
        subst hw
        rw [hsucc]
        rfl
    · intro hcontra
      exact absurd ⟨hb1, hb2, hb3⟩ hcontra
    · intro _ hw1 hw2 hw3
      rw [happly wires, if_pos]
      simp only [Bool.not_eq_true]
      rw [Bool.eq_false_iff]
      intro hw
      cases wires with
      | none => exact hw1 rfl
      | some l =>
        rcases (hbr l).mp hw with hl | hl
        · exact hw2 (by rw [hl])
        · exact hw3 (by rw [hl])
    · intro _ hw
      subst hw
      rw [happly none, if_neg (by simp [wiresFull])]
    · intro _ hw
      subst hw
      rw [happly (some []), if_neg (by simp [wiresFull])]
      simp only [List.length_nil]
      rw [if_pos (by omega)]
    · intro _ hw
      subst hw
      exact hsucc
  · have hcond : (bs.length = 0 ∨ d.num_wires < bs.length ∨
        ¬ bs.all (fun b => b == 0 || b == 1) = true) := by
      by_contra hc
      push_neg at hc
      exact hb ⟨by omega, hc.2.1, (bits_all_check bs).mp hc.2.2⟩
    have happly : apply d "BasisState" wires [Param.bits bs]
        = .error (.invalidBasisState, d) := by
      unfold apply
      rw [if_neg (by decide), if_pos rfl]
      simp only [List.head?]
      rw [if_pos hcond]
    refine ⟨?_, fun _ => happly, fun hc => absurd hc hb, fun hc => absurd hc hb,
      fun hc => absurd hc hb, fun hc => absurd hc hb⟩
    rw [happly]
    constructor
    · intro hfalse
      simp at hfalse
    · rintro ⟨hc, -⟩
      exact absurd hc hb

/-- Witness for C4 (amended): a valid one-bit array on the improper wire
subset `[1]` of a one-wire device fails with the wire-subset error. -/
theorem claim4_witness :
    apply (initDevice 1 1000) "BasisState" (some [1]) [Param.bits [1]]
      = .error (.unsupportedWireSubset, initDevice 1 1000) :=
  (claim4_basis_state_conditions (initDevice 1 1000) [1] (some [1])).2.2.1
    (by unfold bitsOk; decide) (by decide) (by decide) (by decide)

theorem wiresFull_some_iff (n : Nat) (l : List Nat) :
    wiresFull (some l) n = true ↔ (l = [] ∨ l = List.range n) := by
  unfold wiresFull
  rw [Bool.or_eq_true_iff]
  constructor
  · rintro (h | h)
    · exact Or.inl (List.isEmpty_iff.mp h)
    · exact Or.inr (by exact_mod_cast (beq_iff_eq.mp h))
  · rintro (h | h)
    · exact Or.inl (by simp [h])
    · exact Or.inr (by simp [h])

/-- C5 counterexample: the claim predicts that a correct-length state vector
with the wire subset `[]` (not the full wire range) fails with the
wire-subset error, but the call succeeds: the wire check explicitly lets
`None` and the empty list through. -/
theorem claim5_counterexample :
    (apply (initDevice 1 1000) "QubitStateVector" (some []) [Param.vec [1, 0]]).isOk
      = true := rfl

/-- C5 (amended): `apply('QubitStateVector', wires, par)` succeeds exactly
when the vector has length `2^num_wires` and the wire argument is `None`,
the empty list, or the full ordered range; a vector of any other length
fails with the invalid-state-length error (checked first, before the
register is touched), and any other wire argument fails with
`UnsupportedWireSubset` (after the register has been overwritten). -/
theorem claim5_qsv_conditions (d : Device) (v : List ℂ) (wires : Option (List Nat)) :
    ((apply d "QubitStateVector" wires [Param.vec v]).isOk
        ↔ (v.length = 2 ^ d.num_wires ∧
           (wires = none ∨ wires = some [] ∨ wires = some (List.range d.num_wires)))) ∧
    (v.length ≠ 2 ^ d.num_wires →
      apply d "QubitStateVector" wires [Param.vec v] = .error (.invalidStateLength, d)) ∧
    (v.length = 2 ^ d.num_wires →
      wires ≠ none → wires ≠ some [] → wires ≠ some (List.range d.num_wires) →
      apply d "QubitStateVector" wires [Param.vec v]
        = .error (.unsupportedWireSubset, setStateTensor d (reshapeVec v d.num_wires))) ∧
    (v.length = 2 ^ d.num_wires →
      (wires = none ∨ wires = some [] ∨ wires = some (List.range d.num_wires)) →
      apply d "QubitStateVector" wires [Param.vec v]
        = .ok (setStateTensor d (reshapeVec v d.num_wires))) := by
  have hwf : wiresFull wires d.num_wires = true ↔
      (wires = none ∨ wires = some [] ∨ wires = some (List.range d.num_wires)) := by
    cases wires with
    | none => simp [wiresFull]
    | some l =>
      rw [wiresFull_some_iff]
      constructor
      exact fun h => h.elim (fun h1 => Or.inr (Or.inl (by rw [h1])))
        (fun h1 => Or.inr (Or.inr (by rw [h1])))
      rintro (h | h | h)
      · exact absurd h (by simp)
      · exact Or.inl (Option.some.inj h)
      · exact Or.inr (Option.some.inj h)
  have happly : apply d "QubitStateVector" wires [Param.vec v] =
      (if v.length = 2 ^ d.num_wires then
        (if wiresFull wires d.num_wires then
          .ok (setStateTensor d (reshapeVec v d.num_wires))
        else .error (.unsupportedWireSubset, setStateTensor d (reshapeVec v d.num_wires)))
      else .error (.invalidStateLength, d)) := by
    unfold apply
    rw [if_pos rfl]
    simp only [List.head?, qsvVec]
  by_cases hlen : v.length = 2 ^ d.num_wires
  · refine ⟨?_, fun hc => absurd hlen hc, ?_, ?_⟩
    · rw [happly, if_pos hlen]
      by_cases hw : wiresFull wires d.num_wires = true
      · rw [if_pos hw]
        simp only [isOk_ok, true_iff]
        exact ⟨hlen, hwf.mp hw⟩
      · rw [if_neg hw]
        simp only [isOk_error]
        constructor
        · intro hc
          exact absurd hc (by simp)
        · rintro ⟨-, hc⟩
          exact absurd (hwf.mpr hc) hw
    · intro _ h1 h2 h3
      rw [happly, if_pos hlen, if_neg]
      intro hw
      rcases hwf.mp hw with h | h | h
      · exact h1 h
      · exact h2 h
      · exact h3 h
    · intro _ hw
      rw [happly, if_pos hlen, if_pos (hwf.mpr hw)]
  · refine ⟨?_, fun _ => by rw [happly, if_neg hlen], fun hc => absurd hc hlen,
      fun hc => absurd hc hlen⟩
    rw [happly, if_neg hlen]
    simp only [isOk_error]
    constructor
    · intro hc
      exact absurd hc (by simp)
    · rintro ⟨hc, -⟩
      exact absurd hc hlen

/-- Witness for C5 (amended): a length-3 vector on a one-wire device fails
with the invalid-state-length error (and the success case of the
counterexample exercises the amended success condition). -/
theorem claim5_witness :
    apply (initDevice 1 1000) "QubitStateVector" (some [0]) [Param.vec [1, 0, 0]]
      = .error (.invalidStateLength, initDevice 1 1000) :=
  (claim5_qsv_conditions (initDevice 1 1000) [1, 0, 0] (some [0])).2.1 (by decide)

/-- C10: a `QubitStateVector` call with a correct-length vector but an
unsupported wire subset raises only after the State Register tensor has been
overwritten with the reshaped vector (the failed call is not atomic, and the
register ends the call holding the new state), whereas every failing
`BasisState` call leaves the device exactly as it was, because its
validation precedes any mutation. -/
theorem claim10_non_atomic_qsv :
    (∀ (d : Device) (v : List ℂ) (wires : Option (List Nat)),
      d.state_node < d.arena.length →
      v.length = 2 ^ d.num_wires →
      wires ≠ none → wires ≠ some [] → wires ≠ some (List.range d.num_wires) →
      ∃ d1, apply d "QubitStateVector" wires [Param.vec v]
          = .error (.unsupportedWireSubset, d1) ∧
        stateTensor d1 = reshapeVec v d.num_wires) ∧
    (∀ (d : Device) (wires : Option (List Nat)) (par : List Param) (e : PyErr)
        (d1 : Device),
      apply d "BasisState" wires par = .error (e, d1) → d1 = d) := by
  constructor
  · intro d v wires hst hlen h1 h2 h3
    refine ⟨setStateTensor d (reshapeVec v d.num_wires), ?_, ?_⟩
    · exact (claim5_qsv_conditions d v wires).2.2.1 hlen h1 h2 h3
    · exact setStateTensor_stateTensor d _ hst
  · intro d wires par e d1 h
    unfold apply at h
    rw [if_neg (by decide), if_pos rfl] at h
    split at h
    · cases h; rfl
    · split at h
      · cases h; rfl
      · split at h
        · cases h; rfl
        · split at h
          · cases h; rfl
          · split at h
            · cases h; rfl
            · exact absurd h (by simp)
    · cases h; rfl

/-- Witness for C10: the register of a fresh one-wire device ends a failed
full-length `QubitStateVector` call on the wire subset `[1]` holding the
reshaped new vector; and a failing `BasisState` call leaves the fresh device
unchanged. -/
theorem claim10_witness :
    (∃ d1, apply (initDevice 1 1000) "QubitStateVector" (some [1]) [Param.vec [0, 1]]
        = .error (.unsupportedWireSubset, d1) ∧
      stateTensor d1 = reshapeVec [0, 1] 1) ∧
    initDevice 1 1000 = initDevice 1 1000 := by
  constructor
  · exact claim10_non_atomic_qsv.1 (initDevice 1 1000) [0, 1] (some [1])
      (by decide) (by decide) (by decide) (by decide) (by decide)
  · exact claim10_non_atomic_qsv.2 (initDevice 1 1000) (some [1]) [Param.bits []]
      .invalidBasisState (initDevice 1 1000) rfl


/- ======================================================================
Claim C9: singleton normalization of the measurement surface.
====================================================================== -/

/-- C9: for a bare (non-list) observable, each of `expval`, `var` and
`sample` wraps the observable, wires and parameters into singleton lists on
entry, so the single-observable call is exactly the one-element case of the
composite call; for `sample` the equality holds for every draw of the
randomness source, so the two are distributed identically. -/
theorem claim9_singleton_normalization (d : Device) (o : String) (w : List Nat)
    (p : List Param) :
    expval d (.single o w p) = expval d (.multi [o] [w] [p]) ∧
    var d (.single o w p) = var d (.multi [o] [w] [p]) ∧
    ∀ picks : Nat → Nat, sample d (.single o w p) picks = sample d (.multi [o] [w] [p]) picks :=
  ⟨rfl, rfl, fun _ => rfl⟩

/- ======================================================================
Claim C6: the imaginary-part tolerance check.
====================================================================== -/

/-- The wiring phase of `ev`: rename the register as the ket, add the
conjugate bra node, and connect all sandwich edges. -/
noncomputable def evWiring (d : Device) (obsRefs : List Nat) (wires : List (List Nat)) :
    Except PyErr Device :=
  let d1 := addNodeRef d d.state_node "Ket"
  let dn := addNodeT d1 d.num_wires (fun g => star (stateTensor d1 g)) "Bra"
  foldConnect dn.1 (evConns d.num_wires d.state_node dn.2 (obsRefs.zip wires))

/-- The scalar the contraction phase of `ev` produces. -/
noncomputable def evScalar (d : Device) (obsRefs : List Nat) (wires : List (List Nat)) : ℂ :=
  let d1 := addNodeRef d d.state_node "Ket"
  let dn := addNodeT d1 d.num_wires (fun g => star (stateTensor d1 g)) "Bra"
  evRaw d.num_wires (stateTensor d1) ((obsRefs.zip wires).map
    (fun rw => ((dn.1.arena.getD rw.1 defaultNode).tensor, rw.2)))

/-- C6: whether `ev` succeeds is decided entirely by the wiring phase — the
imaginary-part check never raises — and on success `ev` returns exactly the
real part of the contracted scalar in all cases, with the non-fatal warning
flagged precisely when the absolute value of the imaginary part exceeds the
tolerance 1e-10. -/
theorem claim6_imag_tolerance (d : Device) (obsRefs : List Nat) (wires : List (List Nat)) :
    (ev d obsRefs wires).isOk = (evWiring d obsRefs wires).isOk ∧
    (∀ out, ev d obsRefs wires = .ok out →
      out.value = (evScalar d obsRefs wires).re ∧
      (out.warned ↔ tolerance < |(evScalar d obsRefs wires).im|)) := by
  unfold ev evWiring evScalar
  cases hf : foldConnect
      (addNodeT (addNodeRef d d.state_node "Ket") d.num_wires
        (fun g => star (stateTensor (addNodeRef d d.state_node "Ket") g)) "Bra").1
      (evConns d.num_wires d.state_node
        (addNodeT (addNodeRef d d.state_node "Ket") d.num_wires
          (fun g => star (stateTensor (addNodeRef d d.state_node "Ket") g)) "Bra").2
        (obsRefs.zip wires)) with
  | error e =>
    simp only [hf]
    exact ⟨rfl, fun out hout => absurd hout (by simp)⟩
  | ok d3 =>
    simp only [hf]
    have harena := (foldConnect_ok hf).1
    constructor
    · rfl
    · intro out hout
      cases hout
      rw [harena]
      exact ⟨rfl, Iff.rfl⟩

/-- Device for the C6 witness: a fresh one-wire device with a registered
PauliZ observable node. -/
noncomputable def c6dev : Device × Nat := addNodeT (initDevice 1 1000) 2 (reshapeMat 1 Zm) "PauliZ"

/-- Witness for C6: a concrete successful `ev` call with the value equal to
the real part of the contracted scalar and the warning flag tied to the
tolerance comparison. -/
theorem claim6_witness :
    ∃ out, ev c6dev.1 [c6dev.2] [[0]] = .ok out ∧
      out.value = (evScalar c6dev.1 [c6dev.2] [[0]]).re ∧
      (out.warned ↔ tolerance < |(evScalar c6dev.1 [c6dev.2] [[0]]).im|) := by
  refine ⟨_, rfl, ?_⟩
  exact (claim6_imag_tolerance c6dev.1 [c6dev.2] [[0]]).2 _ rfl


/- ======================================================================
Structure lemmas for the measurement flows.
====================================================================== -/

theorem getD_append_add {α : Type} (A B : List α) (j : Nat) (a : α) :
    (A ++ B).getD (A.length + j) a = B.getD j a := by
  rw [List.getD_eq_getElem?_getD, List.getElem?_append_right (Nat.le_add_right _ _),
    Nat.add_sub_cancel_left, ← List.getD_eq_getElem?_getD]

theorem addNodesL_spec : ∀ (items : List ((CTensor × List Nat) × String)) (d : Device),
    (addNodesL d items).1.arena
      = d.arena ++ items.map (fun t => GNode.mk (2 * t.1.2.length) t.1.1 t.2) ∧
    (addNodesL d items).2
      = (List.range items.length).map (fun j => d.arena.length + j) ∧
    (addNodesL d items).1.num_wires = d.num_wires ∧
    (addNodesL d items).1.shots = d.shots ∧
    (addNodesL d items).1.state_node = d.state_node ∧
    (addNodesL d items).1.free_edges = d.free_edges ∧
    (addNodesL d items).1.live = d.live := by
  intro items
  induction items with
  | nil =>
    intro d
    refine ⟨by simp [addNodesL], by simp [addNodesL], rfl, rfl, rfl, rfl, rfl⟩
  | cons t rest ih =>
    intro d
    obtain ⟨ha, hr, h1, h2, h3, h4, h5⟩ := ih (addNodeT d (2 * t.1.2.length) t.1.1 t.2).1
    refine ⟨?_, ?_, h1, h2, h3, h4, h5⟩
    · show (addNodesL (addNodeT d (2 * t.1.2.length) t.1.1 t.2).1 rest).1.arena = _
      rw [ha]
      show d.arena ++ [GNode.mk (2 * t.1.2.length) t.1.1 t.2] ++ _ = _
      rw [List.append_assoc]
      rfl
    · show (addNodeT d (2 * t.1.2.length) t.1.1 t.2).2
        :: (addNodesL (addNodeT d (2 * t.1.2.length) t.1.1 t.2).1 rest).2 = _
      rw [hr]
      show d.arena.length :: (List.range rest.length).map
        (fun j => (d.arena ++ [GNode.mk (2 * t.1.2.length) t.1.1 t.2]).length + j) = _
      have hL : (d.arena ++ [GNode.mk (2 * t.1.2.length) t.1.1 t.2]).length
          = d.arena.length + 1 := by simp
      rw [hL]
      show _ = (List.range (rest.length + 1)).map (fun j => d.arena.length + j)
      rw [List.range_succ_eq_map, List.map_cons, List.map_map]
      refine congrArg₂ _ (by omega) ?_
      apply List.map_congr_left
      intro j _
      show d.arena.length + 1 + j = d.arena.length + (j + 1)
      omega

/-- Look up the `j`-th freshly added node. -/
theorem addNodesL_getD (items : List ((CTensor × List Nat) × String)) (d : Device)
    (j : Nat) (hj : j < items.length) :
    (addNodesL d items).1.arena.getD (d.arena.length + j) defaultNode
      = GNode.mk (2 * (items.getD j (⟨fun _ => 0, []⟩, "")).1.2.length)
          (items.getD j (⟨fun _ => 0, []⟩, "")).1.1 (items.getD j (⟨fun _ => 0, []⟩, "")).2 := by
  rw [(addNodesL_spec items d).1, getD_append_add]
  rw [List.getD_eq_getElem?_getD, List.getElem?_map]
  rw [List.getElem?_eq_getElem (by simpa using hj)]
  simp [List.getD_eq_getElem?_getD, List.getElem?_eq_getElem hj]

/-- What a successful `ev` call does: bookkeeping effects, preservation of
the register and the free edges, restoration of the live edge set, and the
returned value as the Einstein contraction of the register with the
observable node tensors. -/
theorem ev_ok_spec {d : Device} {refs : List Nat} {ws : List (List Nat)} {out : EvOut}
    (h : ev d refs ws = .ok out) :
    out.dev.num_wires = d.num_wires ∧ out.dev.shots = d.shots ∧
    out.dev.state_node = d.state_node ∧ out.dev.free_edges = d.free_edges ∧
    out.dev.arena.length = d.arena.length + 1 ∧
    (∀ i, i < d.arena.length →
      ((out.dev.arena.getD i defaultNode).tensor = (d.arena.getD i defaultNode).tensor ∧
       (out.dev.arena.getD i defaultNode).rank = (d.arena.getD i defaultNode).rank)) ∧
    (d.live = [] → out.dev.live = []) ∧
    ((∀ r ∈ refs, r < d.arena.length) →
      out.value = (evRaw d.num_wires (stateTensor d) ((refs.zip ws).map
        (fun rw => ((d.arena.getD rw.1 defaultNode).tensor, rw.2)))).re) := by
  unfold ev at h
  simp only at h
  cases hf : foldConnect
      (addNodeT (addNodeRef d d.state_node "Ket") d.num_wires
        (fun g => star (stateTensor (addNodeRef d d.state_node "Ket") g)) "Bra").1
      (evConns d.num_wires d.state_node
        (addNodeT (addNodeRef d d.state_node "Ket") d.num_wires
          (fun g => star (stateTensor (addNodeRef d d.state_node "Ket") g)) "Bra").2
        (refs.zip ws)) with
  | error e =>
    rw [hf] at h
    exact absurd h (by simp)
  | ok d3 =>
    rw [hf] at h
    cases h
    obtain ⟨ha3, hs3, hf3, hn3, hsh3, hl3, -⟩ := foldConnect_ok hf
    have hlen1 := addNodeRef_arena_length d d.state_node "Ket"
    have haT : ∀ (X : Device) (r : Nat) (T : CTensor) (nm : String),
        (addNodeT X r T nm).1.arena = X.arena ++ [GNode.mk r T nm] := fun _ _ _ _ => rfl
    rw [haT] at ha3
    refine ⟨hn3, hsh3, hs3, hf3, ?_, ?_, ?_, ?_⟩
    · show d3.arena.length = _
      rw [ha3, List.length_append, hlen1]
      rfl
    · intro i hi
      show ((d3.arena.getD i defaultNode).tensor = _ ∧ _)
      have hi2 : i < (addNodeRef d d.state_node "Ket").arena.length := by
        rw [hlen1]; exact hi
      rw [ha3, getD_append_lt _ _ _ _ hi2]
      exact ⟨(addNodeRef_getD d d.state_node "Ket" i).2,
        (addNodeRef_getD d d.state_node "Ket" i).1⟩
    · intro hlive
      show (d3.live.filter _) = []
      rw [hl3]
      have hlv : (addNodeT (addNodeRef d d.state_node "Ket") d.num_wires
          (fun g => star (stateTensor (addNodeRef d d.state_node "Ket") g)) "Bra").1.live
          = ([] : List Conn) := hlive
      rw [hlv, List.nil_append]
      exact filter_not_contains_self _
    · intro hrefs
      show (evRaw d.num_wires (stateTensor (addNodeRef d d.state_node "Ket"))
        ((refs.zip ws).map (fun rw => ((d3.arena.getD rw.1 defaultNode).tensor, rw.2)))).re = _
      rw [addNodeRef_stateTensor]
      congr 2
      apply List.map_congr_left
      intro rw hrw
      have hr1 : rw.1 ∈ refs := by
        have := List.of_mem_zip (a := rw.1) (b := rw.2) (by simpa using hrw)
        exact this.1
      have hlt : rw.1 < (addNodeRef d d.state_node "Ket").arena.length := by
        rw [hlen1]; exact hrefs rw.1 hr1
      rw [ha3, getD_append_lt _ _ _ _ hlt, (addNodeRef_getD d d.state_node "Ket" rw.1).2]


theorem reshapeAll_ok : ∀ {l : List ((Nat × CMatrix) × List Nat)}
    {ts : List (CTensor × List Nat)}, reshapeAll l = .ok ts →
    ts = l.map (fun t => (reshapeMat t.2.length t.1.2, t.2)) := by
  intro l
  induction l with
  | nil =>
    intro ts h
    unfold reshapeAll at h
    cases h
    rfl
  | cons t rest ih =>
    intro ts h
    unfold reshapeAll at h
    split at h
    · cases hr : reshapeAll rest with
      | error e => rw [hr] at h; exact absurd h (by simp)
      | ok ts2 =>
        rw [hr] at h
        cases h
        rw [List.map_cons, ← ih hr]
    · exact absurd h (by simp)

theorem resolveAll_ok_length : ∀ {l : List (String × List Param)}
    {ms : List (Nat × CMatrix)}, resolveAll l = .ok ms → ms.length = l.length := by
  intro l
  induction l with
  | nil =>
    intro ms h
    unfold resolveAll at h
    cases h
    rfl
  | cons t rest ih =>
    intro ms h
    unfold resolveAll at h
    cases hg : getOperatorMatrix t.1 t.2 with
    | none => rw [hg] at h; exact absurd h (by simp)
    | some dm =>
      rw [hg] at h
      cases hr : resolveAll rest with
      | error e => rw [hr] at h; exact absurd h (by simp)
      | ok ms2 =>
        rw [hr] at h
        cases h
        simp [ih hr]

theorem addNodesL_stateTensor (items : List ((CTensor × List Nat) × String)) (d : Device)
    (hst : d.state_node < d.arena.length) :
    stateTensor (addNodesL d items).1 = stateTensor d := by
  unfold stateTensor
  rw [(addNodesL_spec items d).2.2.2.2.1, (addNodesL_spec items d).1,
    getD_append_lt _ _ _ _ hst]

theorem addNodesL_stateRank (items : List ((CTensor × List Nat) × String)) (d : Device)
    (hst : d.state_node < d.arena.length) :
    stateRank (addNodesL d items).1 = stateRank d := by
  unfold stateRank
  rw [(addNodesL_spec items d).2.2.2.2.1, (addNodesL_spec items d).1,
    getD_append_lt _ _ _ _ hst]

theorem addNodesL_arena_length (items : List ((CTensor × List Nat) × String)) (d : Device) :
    (addNodesL d items).1.arena.length = d.arena.length + items.length := by
  rw [(addNodesL_spec items d).1]
  simp

theorem addNodesL_refs_lt (items : List ((CTensor × List Nat) × String)) (d : Device) :
    ∀ r ∈ (addNodesL d items).2, r < (addNodesL d items).1.arena.length := by
  intro r hr
  rw [(addNodesL_spec items d).2.1] at hr
  rw [addNodesL_arena_length]
  obtain ⟨j, hj, hjr⟩ := List.mem_map.mp hr
  rw [List.mem_range] at hj
  omega

/-- Reading the freshly registered observable nodes back out of the arena
reproduces the tensor/wire pairs they were built from. -/
theorem map_zip_lookup (d : Device) (ts : List (CTensor × List Nat)) (os : List String)
    (ws : List (List Nat))
    (hts : ts.length = os.length) (hws : ts.length ≤ ws.length)
    (htw : ∀ j : Nat, j < ts.length → j < ws.length →
      (ts.getD j (fun _ => 0, [])).2 = ws.getD j []) :
    (((addNodesL d (ts.zip os)).2).zip ws).map
      (fun rw => (((addNodesL d (ts.zip os)).1.arena.getD rw.1 defaultNode).tensor, rw.2))
      = ts := by
  have hlenitems : (ts.zip os).length = ts.length := by
    rw [List.length_zip]; omega
  have hlenrefs : (addNodesL d (ts.zip os)).2.length = ts.length := by
    rw [(addNodesL_spec (ts.zip os) d).2.1]
    simp [hlenitems]
  apply List.ext_getElem
  · simp [hlenrefs]
    omega
  · intro j h1 h2
    have hjts : j < ts.length := by
      simp [hlenrefs] at h1
      omega
    have hjws : j < ws.length := by omega
    rw [List.getElem_map, List.getElem_zip]
    have hjrefs : j < (addNodesL d (ts.zip os)).2.length := by
      rw [hlenrefs]; exact hjts
    have hjmapped : j < ((List.range (ts.zip os).length).map
        (fun i => d.arena.length + i)).length := by
      simp [hlenitems]; exact hjts
    have hjos : j < os.length := by omega
    have hrefj : ((addNodesL d (ts.zip os)).2)[j] = d.arena.length + j := by
      have hspec := (addNodesL_spec (ts.zip os) d).2.1
      have : ((addNodesL d (ts.zip os)).2)[j]
          = ((List.range (ts.zip os).length).map (fun i => d.arena.length + i))[j] := by
        congr 1
      rw [this, List.getElem_map, List.getElem_range]
    simp only [hrefj]
    have hlook := addNodesL_getD (ts.zip os) d j (by rw [hlenitems]; exact hjts)
    rw [hlook]
    have hget : (ts.zip os).getD j ((fun _ => (0 : ℂ), []), "")
        = (ts[j], os[j]) := by
      rw [List.getD_eq_getElem?_getD, List.getElem?_eq_getElem (by rw [hlenitems]; exact hjts)]
      simp [List.getElem_zip]
    rw [hget]
    show (ts[j].1, ws[j]) = ts[j]
    have hw := htw j hjts hjws
    rw [List.getD_eq_getElem?_getD, List.getElem?_eq_getElem hjts] at hw
    rw [List.getD_eq_getElem?_getD, List.getElem?_eq_getElem hjws] at hw
    simp only [Option.getD_some] at hw
    rw [← hw]


/- ======================================================================
Claim C1: var = ev(A@A reshaped) - ev(A reshaped)^2.
====================================================================== -/

/-- C1: for every observable list, wire list and parameter tuple on which
`var` succeeds, the returned value equals the `ev` contraction of the
squared observable matrices (each matrix product `A@A`, reshaped identically
to `A`) minus the square of the `ev` contraction of the observables
themselves, both expectation values being the same Einstein-contraction
pathway (`evRaw`) applied to the same register tensor — an exact equation
between the computed values. -/
theorem claim1_var_decomposition (d : Device) (os : List String) (ws : List (List Nat))
    (ps : List (List Param)) (ms : List (Nat × CMatrix)) (r : ℝ × Device)
    (hres : resolveAll (os.zip ps) = .ok ms)
    (hst : d.state_node < d.arena.length)
    (hlos : os.length = ws.length) (hlps : ps.length = os.length)
    (h : var d (.multi os ws ps) = .ok r) :
    r.1 = (evRaw d.num_wires (stateTensor d)
        (((ms.map (fun dm => (dm.1, matMul dm.1 dm.2 dm.2))).zip ws).map
          (fun t => (reshapeMat t.2.length t.1.2, t.2)))).re
      - ((evRaw d.num_wires (stateTensor d)
          ((ms.zip ws).map (fun t => (reshapeMat t.2.length t.1.2, t.2)))).re) ^ 2 := by
  have hms : ms.length = os.length := by
    have hx := resolveAll_ok_length hres
    rw [List.length_zip] at hx
    omega
  unfold var varCore at h
  simp only at h
  rw [hres] at h
  simp only at h
  cases hts : reshapeAll (ms.zip ws) with
  | error e => rw [hts] at h; exact absurd h (by simp)
  | ok ts =>
  rw [hts] at h
  simp only at h
  cases hts2 : reshapeAll ((ms.map (fun dm => (dm.1, matMul dm.1 dm.2 dm.2))).zip ws) with
  | error e => rw [hts2] at h; exact absurd h (by simp)
  | ok ts2 =>
  rw [hts2] at h
  simp only at h
  cases hev1 : ev (addNodesL (addNodesL d (ts.zip os)).1 (ts2.zip os)).1
      (addNodesL (addNodesL d (ts.zip os)).1 (ts2.zip os)).2 ws with
  | error e => rw [hev1] at h; exact absurd h (by simp)
  | ok o1 =>
  rw [hev1] at h
  simp only at h
  cases hev2 : ev o1.dev (addNodesL d (ts.zip os)).2 ws with
  | error e => rw [hev2] at h; exact absurd h (by simp)
  | ok o2 =>
  rw [hev2] at h
  simp only at h
  cases h
  show o1.value - o2.value ^ 2 = _
  have htsv := reshapeAll_ok hts
  have hts2v := reshapeAll_ok hts2
  have htsl : ts.length = os.length := by
    rw [htsv, List.length_map, List.length_zip]
    omega
  have hts2l : ts2.length = os.length := by
    rw [hts2v, List.length_map, List.length_zip, List.length_map]
    omega
  have hstdr : (addNodesL d (ts.zip os)).1.state_node
      < (addNodesL d (ts.zip os)).1.arena.length := by
    rw [(addNodesL_spec (ts.zip os) d).2.2.2.2.1, addNodesL_arena_length]
    omega
  have hstdr2 : (addNodesL (addNodesL d (ts.zip os)).1 (ts2.zip os)).1.state_node
      < (addNodesL (addNodesL d (ts.zip os)).1 (ts2.zip os)).1.arena.length := by
    rw [(addNodesL_spec (ts2.zip os) _).2.2.2.2.1, addNodesL_arena_length]
    omega
  have hnw2 : (addNodesL (addNodesL d (ts.zip os)).1 (ts2.zip os)).1.num_wires
      = d.num_wires := by
    rw [(addNodesL_spec (ts2.zip os) _).2.2.1, (addNodesL_spec (ts.zip os) d).2.2.1]
  have hpsi2 : stateTensor (addNodesL (addNodesL d (ts.zip os)).1 (ts2.zip os)).1
      = stateTensor d := by
    rw [addNodesL_stateTensor _ _ hstdr, addNodesL_stateTensor _ _ hst]
  have hspec1 := ev_ok_spec hev1
  have hv1 := hspec1.2.2.2.2.2.2.2 (addNodesL_refs_lt (ts2.zip os) _)
  have hlook1 : (((addNodesL (addNodesL d (ts.zip os)).1 (ts2.zip os)).2).zip ws).map
      (fun rw => (((addNodesL (addNodesL d (ts.zip os)).1 (ts2.zip os)).1.arena.getD
          rw.1 defaultNode).tensor, rw.2)) = ts2 := by
    apply map_zip_lookup _ ts2 os ws hts2l (by omega)
    intro j h1 h2
    rw [hts2v]
    have hlt : j < (((ms.map (fun dm => (dm.1, matMul dm.1 dm.2 dm.2))).zip ws).map
        (fun t => (reshapeMat t.2.length t.1.2, t.2))).length := by
      rw [← hts2v]; exact h1
    rw [List.getD_eq_getElem?_getD, List.getElem?_eq_getElem hlt]
    rw [List.getD_eq_getElem?_getD, List.getElem?_eq_getElem h2]
    simp [List.getElem_zip]
  rw [hlook1, hnw2, hpsi2] at hv1
  have hspec2 := ev_ok_spec hev2
  have hrefslt : ∀ rr ∈ (addNodesL d (ts.zip os)).2, rr < o1.dev.arena.length := by
    intro rr hrr
    have h1 := addNodesL_refs_lt (ts.zip os) d rr hrr
    have h2 : (addNodesL (addNodesL d (ts.zip os)).1 (ts2.zip os)).1.arena.length
        = (addNodesL d (ts.zip os)).1.arena.length + (ts2.zip os).length := by
      rw [addNodesL_arena_length]
    have h3 := hspec1.2.2.2.2.1
    omega
  have hv2 := hspec2.2.2.2.2.2.2.2 hrefslt
  have hnw1 : o1.dev.num_wires = d.num_wires := by rw [hspec1.1, hnw2]
  have hpsio1 : stateTensor o1.dev = stateTensor d := by
    unfold stateTensor
    rw [hspec1.2.2.1]
    have hi : (addNodesL (addNodesL d (ts.zip os)).1 (ts2.zip os)).1.state_node
        < (addNodesL (addNodesL d (ts.zip os)).1 (ts2.zip os)).1.arena.length := hstdr2
    rw [(hspec1.2.2.2.2.2.1 _ hi).1]
    exact hpsi2
  have hlook2 : (((addNodesL d (ts.zip os)).2).zip ws).map
      (fun rw => ((o1.dev.arena.getD rw.1 defaultNode).tensor, rw.2)) = ts := by
    have hcongr1 : (((addNodesL d (ts.zip os)).2).zip ws).map
        (fun rw => ((o1.dev.arena.getD rw.1 defaultNode).tensor, rw.2))
        = (((addNodesL d (ts.zip os)).2).zip ws).map
          (fun rw => (((addNodesL (addNodesL d (ts.zip os)).1 (ts2.zip os)).1.arena.getD
            rw.1 defaultNode).tensor, rw.2)) := by
      apply List.map_congr_left
      intro rw hrw
      have hr1 : rw.1 ∈ (addNodesL d (ts.zip os)).2 :=
        (List.of_mem_zip (a := rw.1) (b := rw.2) (by simpa using hrw)).1
      have hlt : rw.1 < (addNodesL (addNodesL d (ts.zip os)).1 (ts2.zip os)).1.arena.length := by
        have h1 := addNodesL_refs_lt (ts.zip os) d rw.1 hr1
        have h2 : (addNodesL (addNodesL d (ts.zip os)).1 (ts2.zip os)).1.arena.length
            = (addNodesL d (ts.zip os)).1.arena.length + (ts2.zip os).length := by
          rw [addNodesL_arena_length]
        omega
      rw [(hspec1.2.2.2.2.2.1 rw.1 hlt).1]
    have hcongr2 : (((addNodesL d (ts.zip os)).2).zip ws).map
        (fun rw => (((addNodesL (addNodesL d (ts.zip os)).1 (ts2.zip os)).1.arena.getD
          rw.1 defaultNode).tensor, rw.2))
        = (((addNodesL d (ts.zip os)).2).zip ws).map
          (fun rw => (((addNodesL d (ts.zip os)).1.arena.getD rw.1 defaultNode).tensor,
            rw.2)) := by
      apply List.map_congr_left
      intro rw hrw
      have hr1 : rw.1 ∈ (addNodesL d (ts.zip os)).2 :=
        (List.of_mem_zip (a := rw.1) (b := rw.2) (by simpa using hrw)).1
      have hlt := addNodesL_refs_lt (ts.zip os) d rw.1 hr1
      rw [(addNodesL_spec (ts2.zip os) (addNodesL d (ts.zip os)).1).1,
        getD_append_lt _ _ _ _ hlt]
    rw [hcongr1, hcongr2]
    apply map_zip_lookup d ts os ws htsl (by omega)
    intro j h1 h2
    rw [htsv]
    have hlt : j < ((ms.zip ws).map
        (fun t => (reshapeMat t.2.length t.1.2, t.2))).length := by
      rw [← htsv]; exact h1
    rw [List.getD_eq_getElem?_getD, List.getElem?_eq_getElem hlt]
    rw [List.getD_eq_getElem?_getD, List.getElem?_eq_getElem h2]
    simp [List.getElem_zip]
  rw [hlook2, hnw1, hpsio1] at hv2
  rw [hv1, hv2, htsv, hts2v]

/-- Witness for C1: a concrete successful `var` call on PauliZ for a fresh
one-wire device, decomposed into the two `ev` contractions. -/
theorem claim1_witness :
    ∃ r, var (initDevice 1 1000) (.multi ["PauliZ"] [[0]] [[]]) = .ok r ∧
      r.1 = (evRaw 1 (stateTensor (initDevice 1 1000))
          ((([(2, matMul 2 Zm Zm)]).zip [[0]]).map
            (fun t => (reshapeMat t.2.length t.1.2, t.2)))).re
        - ((evRaw 1 (stateTensor (initDevice 1 1000))
            (([(2, Zm)].zip [[0]]).map
              (fun t => (reshapeMat t.2.length t.1.2, t.2)))).re) ^ 2 := by
  refine ⟨_, rfl, ?_⟩
  exact claim1_var_decomposition (initDevice 1 1000) ["PauliZ"] [[0]] [[]]
    [(2, Zm)] _ rfl (by decide) (by decide) (by decide) rfl


/- ======================================================================
Claim C8: the structure of sample.
====================================================================== -/

theorem getD_mem_of_lt {α : Type} (l : List α) (n : Nat) (a : α) (h : n < l.length) :
    l.getD n a ∈ l := by
  rw [List.getD_eq_getElem?_getD, List.getElem?_eq_getElem h]
  exact List.getElem_mem h

theorem randomChoice_length (outcomes : List ℝ) (shots : Nat) (p : List ℝ)
    (picks : Nat → Nat) : (randomChoice outcomes shots p picks).length = shots := by
  simp [randomChoice]

theorem randomChoice_getD (outcomes : List ℝ) (shots : Nat) (p : List ℝ)
    (picks : Nat → Nat) (t : Nat) (h : t < shots) :
    (randomChoice outcomes shots p picks).getD t 0 = outcomes.getD (picks t) 0 := by
  unfold randomChoice
  rw [List.getD_eq_getElem?_getD, List.getElem?_map, List.getElem?_range h]
  rfl

theorem map_pair_eq_zip_replicate (l : List (CTensor × List Nat)) (c : String) :
    l.map (fun t => (t, c)) = l.zip (List.replicate l.length c) := by
  induction l with
  | nil => rfl
  | cons x rest ih => simp only [List.map_cons, List.length_cons,
      List.replicate_succ, List.zip_cons_cons, ih]

/-- What the per-joint-outcome probability loop of `sample` computes: one
`ev` contraction of the register with each tuple's reshaped projectors, the
register itself being preserved across the whole loop. -/
theorem sampleProbsLoop_ok : ∀ (pls : List (List ((Nat × CMatrix) × List Nat)))
    (d : Device) (pr : List ℝ × Device),
    sampleProbsLoop d pls = .ok pr →
    d.state_node < d.arena.length →
    pr.1 = pls.map (fun projs => (evRaw d.num_wires (stateTensor d)
      (projs.map (fun t => (reshapeMat t.2.length t.1.2, t.2)))).re) ∧
    pr.2.num_wires = d.num_wires ∧ pr.2.shots = d.shots ∧
    pr.2.state_node = d.state_node ∧
    stateTensor pr.2 = stateTensor d ∧
    pr.2.free_edges = d.free_edges ∧
    d.arena.length ≤ pr.2.arena.length ∧
    pr.2.state_node < pr.2.arena.length ∧
    (d.live = [] → pr.2.live = []) := by
  intro pls
  induction pls with
  | nil =>
    intro d pr h hst
    unfold sampleProbsLoop at h
    cases h
    exact ⟨rfl, rfl, rfl, rfl, rfl, rfl, Nat.le_refl _, hst, fun hl => hl⟩
  | cons projs rest ih =>
    intro d pr h hst
    unfold sampleProbsLoop at h
    cases hts : reshapeAll projs with
    | error e => rw [hts] at h; exact absurd h (by simp)
    | ok ts =>
    rw [hts] at h
    simp only at h
    cases hev : ev (addNodesL d (ts.map (fun t => (t, "UnnamedNode")))).1
        (addNodesL d (ts.map (fun t => (t, "UnnamedNode")))).2 (projs.map Prod.snd) with
    | error e => rw [hev] at h; exact absurd h (by simp)
    | ok o1 =>
    rw [hev] at h
    simp only at h
    cases hrec : sampleProbsLoop o1.dev rest with
    | error e => rw [hrec] at h; exact absurd h (by simp)
    | ok pr2 =>
    rw [hrec] at h
    cases h
    have htsv := reshapeAll_ok hts
    have htsl : ts.length = projs.length := by rw [htsv, List.length_map]
    have hstdr : (addNodesL d (ts.map (fun t => (t, "UnnamedNode")))).1.state_node
        < (addNodesL d (ts.map (fun t => (t, "UnnamedNode")))).1.arena.length := by
      rw [(addNodesL_spec _ _).2.2.2.2.1, addNodesL_arena_length]
      omega
    have hspec := ev_ok_spec hev
    have hsto1 : o1.dev.state_node < o1.dev.arena.length := by
      have h1 := hspec.2.2.1
      have h2 := hspec.2.2.2.2.1
      omega
    obtain ⟨ihv, ihn, ihs, ihsn, ihψ, ihf, ihal, ihsl, ihlv⟩ := ih o1.dev pr2 hrec hsto1
    have hnwdr : (addNodesL d (ts.map (fun t => (t, "UnnamedNode")))).1.num_wires
        = d.num_wires := (addNodesL_spec _ _).2.2.1
    have hψdr : stateTensor (addNodesL d (ts.map (fun t => (t, "UnnamedNode")))).1
        = stateTensor d := addNodesL_stateTensor _ _ hst
    have hψo1 : stateTensor o1.dev = stateTensor d := by
      unfold stateTensor
      rw [hspec.2.2.1, (hspec.2.2.2.2.2.1 _ hstdr).1]
      exact hψdr
    have hno1 : o1.dev.num_wires = d.num_wires := by rw [hspec.1, hnwdr]
    refine ⟨?_, ?_, ?_, ?_, ?_, ?_, ?_, ihsl, ?_⟩
    · show o1.value :: pr2.1 = _
      rw [List.map_cons]
      congr 1
      · have hv := hspec.2.2.2.2.2.2.2 (addNodesL_refs_lt _ _)
        have hitems : ts.map (fun t => (t, "UnnamedNode"))
            = ts.zip (List.replicate ts.length "UnnamedNode") :=
          map_pair_eq_zip_replicate ts "UnnamedNode"
        have hlook : (((addNodesL d (ts.map (fun t => (t, "UnnamedNode")))).2).zip
            (projs.map Prod.snd)).map
            (fun rw => (((addNodesL d (ts.map (fun t => (t, "UnnamedNode")))).1.arena.getD
              rw.1 defaultNode).tensor, rw.2)) = ts := by
          rw [hitems]
          apply map_zip_lookup d ts (List.replicate ts.length "UnnamedNode")
            (projs.map Prod.snd) (by simp) (by simp [htsl])
          intro j h1 h2
          rw [htsv]
          have hlt : j < (projs.map
              (fun t => (reshapeMat t.2.length t.1.2, t.2))).length := by
            rw [← htsv]; exact h1
          rw [List.getD_eq_getElem?_getD, List.getElem?_eq_getElem hlt]
          rw [List.getD_eq_getElem?_getD, List.getElem?_eq_getElem h2]
          simp
        rw [hlook, hnwdr, hψdr] at hv
        rw [hv, htsv]
      · rw [ihv, hψo1, hno1]
    · rw [ihn, hno1]
    · rw [ihs, hspec.2.1]
      exact (addNodesL_spec _ _).2.2.2.1
    · rw [ihsn, hspec.2.2.1]
      exact (addNodesL_spec _ _).2.2.2.2.1
    · rw [ihψ, hψo1]
    · rw [ihf, hspec.2.2.2.1]
      exact (addNodesL_spec _ _).2.2.2.2.2.1
    · show d.arena.length ≤ pr2.2.arena.length
      have h1 := hspec.2.2.2.2.1
      have h2 : (addNodesL d (ts.map (fun t => (t, "UnnamedNode")))).1.arena.length
          = d.arena.length + (ts.map (fun t => (t, "UnnamedNode"))).length :=
        addNodesL_arena_length _ _
      omega
    · intro hl
      apply ihlv
      apply hspec.2.2.2.2.2.2.1
      rw [(addNodesL_spec _ _).2.2.2.2.2.2]
      exact hl


/-- C8: on every successful `sample` call, the result is a sequence of
exactly `shots` real values; each drawn value is an element of the joint
outcome space — the Cartesian product across observables of their spectral
(eigenvalue, projector) pairs — whose numeric value is the product of the
chosen eigenvalues; and the probability attached to each joint outcome is a
single `ev` contraction of all chosen projectors wired together into one
bra-ket sandwich (one `ev` call per joint outcome). -/
theorem claim8_sample (d : Device) (os : List String) (ws : List (List Nat))
    (ps : List (List Param)) (picks : Nat → Nat) (ms : List (Nat × CMatrix))
    (res : List ℝ × Device)
    (hres : resolveAll (os.zip ps) = .ok ms)
    (hst : d.state_node < d.arena.length)
    (h : sample d (.multi os ws ps) picks = .ok res)
    (hpicks : ∀ t, picks t < ((listProd (ms.map (fun dm =>
        (spectralDecomp dm.1 dm.2).map Prod.fst))).map (fun l => l.prod)).length) :
    res.1.length = d.shots ∧
    (∀ t, t < d.shots → res.1.getD t 0
        = ((listProd (ms.map (fun dm => (spectralDecomp dm.1 dm.2).map Prod.fst))).map
            (fun l => l.prod)).getD (picks t) 0) ∧
    (∀ x ∈ res.1, x ∈ (listProd (ms.map (fun dm =>
        (spectralDecomp dm.1 dm.2).map Prod.fst))).map (fun l => l.prod)) ∧
    (∃ probs d2, sampleProbsLoop d (listProd (((ms.map (fun dm =>
          (dm.1, spectralDecomp dm.1 dm.2))).zip ws).map
          (fun t => t.1.2.map (fun ep => ((t.1.1, ep.2), t.2))))) = .ok (probs, d2) ∧
      probs = (listProd (((ms.map (fun dm => (dm.1, spectralDecomp dm.1 dm.2))).zip ws).map
          (fun t => t.1.2.map (fun ep => ((t.1.1, ep.2), t.2))))).map
        (fun projs => (evRaw d.num_wires (stateTensor d)
          (projs.map (fun t => (reshapeMat t.2.length t.1.2, t.2)))).re) ∧
      res.1 = randomChoice ((listProd (ms.map (fun dm =>
          (spectralDecomp dm.1 dm.2).map Prod.fst))).map (fun l => l.prod))
          d.shots probs picks) := by
  have heigs : (ms.map (fun dm => (dm.1, spectralDecomp dm.1 dm.2))).map
      (fun t => t.2.map Prod.fst)
      = ms.map (fun dm => (spectralDecomp dm.1 dm.2).map Prod.fst) := by
    rw [List.map_map]
    rfl
  unfold sample sampleCore at h
  simp only at h
  rw [hres] at h
  simp only at h
  cases hloop : sampleProbsLoop d (listProd (((ms.map (fun dm =>
      (dm.1, spectralDecomp dm.1 dm.2))).zip ws).map
      (fun t => t.1.2.map (fun ep => ((t.1.1, ep.2), t.2))))) with
  | error e => rw [hloop] at h; exact absurd h (by simp)
  | ok pr =>
  rw [hloop] at h
  cases h
  obtain ⟨hprobs, -, -, -, -, -, -, -, -⟩ := sampleProbsLoop_ok _ _ _ hloop hst
  have houtc : ((listProd ((ms.map (fun dm => (dm.1, spectralDecomp dm.1 dm.2))).map
      (fun t => t.2.map Prod.fst))).map (fun l : List ℝ => l.prod))
      = ((listProd (ms.map (fun dm => (spectralDecomp dm.1 dm.2).map Prod.fst))).map
        (fun l : List ℝ => l.prod)) := by
    rw [heigs]
  refine ⟨?_, ?_, ?_, pr.1, pr.2, ?_, ?_, ?_⟩
  · exact randomChoice_length ((listProd ((ms.map (fun dm =>
      (dm.1, spectralDecomp dm.1 dm.2))).map (fun t => t.2.map Prod.fst))).map
      (fun l : List ℝ => l.prod)) d.shots pr.1 picks
  · intro t ht
    rw [← houtc]
    exact randomChoice_getD ((listProd ((ms.map (fun dm =>
      (dm.1, spectralDecomp dm.1 dm.2))).map (fun t => t.2.map Prod.fst))).map
      (fun l : List ℝ => l.prod)) d.shots pr.1 picks t ht
  · intro x hx
    rw [← houtc]
    have hx2 : x ∈ randomChoice ((listProd ((ms.map (fun dm =>
        (dm.1, spectralDecomp dm.1 dm.2))).map (fun t => t.2.map Prod.fst))).map
        (fun l : List ℝ => l.prod)) d.shots pr.1 picks := hx
    unfold randomChoice at hx2
    obtain ⟨t, ht, hxval⟩ := List.mem_map.mp hx2
    rw [← hxval]
    apply getD_mem_of_lt
    rw [houtc]
    exact hpicks t
  · rw [Prod.mk.eta]
  · exact hprobs
  · show randomChoice ((listProd ((ms.map (fun dm =>
        (dm.1, spectralDecomp dm.1 dm.2))).map (fun t => t.2.map Prod.fst))).map
        (fun l : List ℝ => l.prod)) d.shots pr.1 picks = _
    rw [houtc]


/-- Witness for C8: a concrete successful `sample` call on PauliZ for a
fresh one-wire device returning 1000 draws from the two-point joint outcome
space. -/
theorem claim8_witness :
    ∃ res, sample (initDevice 1 1000) (.multi ["PauliZ"] [[0]] [[]]) (fun _ => 0)
        = .ok res ∧
      res.1.length = 1000 ∧
      (∀ x ∈ res.1, x ∈ (listProd ([((2 : Nat), Zm)].map (fun dm =>
          (spectralDecomp dm.1 dm.2).map Prod.fst))).map (fun l : List ℝ => l.prod)) := by
  refine ⟨_, rfl, ?_⟩
  have h := claim8_sample (initDevice 1 1000) ["PauliZ"] [[0]] [[]] (fun _ => 0)
    [((2 : Nat), Zm)] _ rfl (by decide) rfl ?_
  · exact ⟨h.1, h.2.2.1⟩
  · intro t
    show (0 : Nat) < ((listProd ([((2 : Nat), Zm)].map (fun dm =>
      (spectralDecomp dm.1 dm.2).map Prod.fst))).map (fun l : List ℝ => l.prod)).length
    decide


/- ======================================================================
Claim C2: measurement engines preserve the State Register.

The key technical device is a characterization of `foldConnect` success as a
recursively defined predicate `PairwiseOk`, which transports along any
renaming of node handles that is injective on the occurring legs and
preserves the ranks at the occurring handles.  A successful first
measurement call then yields a successful second call on the preserved
register, with the same value.
====================================================================== -/

def legsOf (cs : List Conn) : List Leg := cs.map Prod.fst ++ cs.map Prod.snd

def mapLeg (f : Nat → Nat) (l : Leg) : Leg := (f l.1, l.2)

def connMap (f : Nat → Nat) (c : Conn) : Conn := (mapLeg f c.1, mapLeg f c.2)

/-- The conditions `connectE` checks for one edge. -/
def connOk (arena : List GNode) (live : List Conn) (c : Conn) : Prop :=
  (∃ n1, arena.get? c.1.1 = some n1 ∧ c.1.2 < n1.rank) ∧
  (∃ n2, arena.get? c.2.1 = some n2 ∧ c.2.2 < n2.rank) ∧
  c.1 ≠ c.2 ∧ danglingB live c.1 = true ∧ danglingB live c.2 = true

/-- The conditions for a whole edge list to connect successfully, with the
live set threaded through. -/
def PairwiseOk (arena : List GNode) : List Conn → List Conn → Prop
  | _, [] => True
  | live, c :: rest => connOk arena live c ∧ PairwiseOk arena (live ++ [c]) rest

theorem connectE_isOk_iff (d : Device) (l1 l2 : Leg) :
    (connectE d l1 l2).isOk = true ↔ connOk d.arena d.live (l1, l2) := by
  unfold connectE connOk
  cases h1 : d.arena.get? l1.1 with
  | none => simp [h1]
  | some n1 =>
    cases h2 : d.arena.get? l2.1 with
    | none => simp [h1, h2]
    | some n2 =>
      simp only [h1, h2]
      by_cases hr1 : l1.2 < n1.rank
      · by_cases hr2 : l2.2 < n2.rank
        · by_cases hc : l1 ≠ l2 ∧ danglingB d.live l1 = true ∧ danglingB d.live l2 = true
          · rw [if_pos hr1, if_pos hr2, if_pos hc]
            simp only [isOk_ok, true_iff]
            exact ⟨⟨n1, rfl, hr1⟩, ⟨n2, rfl, hr2⟩, hc.1, hc.2.1, hc.2.2⟩
          · rw [if_pos hr1, if_pos hr2, if_neg hc]
            constructor
            · intro hfalse
              exact absurd hfalse (by simp)
            · rintro ⟨-, -, h3, h4, h5⟩
              exact absurd ⟨h3, h4, h5⟩ hc
        · rw [if_pos hr1, if_neg hr2]
          constructor
          · intro hfalse
            exact absurd hfalse (by simp)
          · rintro ⟨-, ⟨n2x, hn2x, hrx⟩, -⟩
            cases hn2x
            exact absurd hrx hr2
      · rw [if_neg hr1]
        constructor
        · intro hfalse
          exact absurd hfalse (by simp)
        · rintro ⟨⟨n1x, hn1x, hrx⟩, -⟩
          cases hn1x
          exact absurd hrx hr1

theorem foldConnect_isOk_iff : ∀ (cs : List Conn) (d : Device),
    (foldConnect d cs).isOk = true ↔ PairwiseOk d.arena d.live cs := by
  intro cs
  induction cs with
  | nil => intro d; simp [foldConnect, PairwiseOk]
  | cons c rest ih =>
    intro d
    unfold foldConnect PairwiseOk
    cases hc : connectE d c.1 c.2 with
    | error e =>
      simp only [isOk_error]
      constructor
      · intro hfalse
        exact absurd hfalse (by simp)
      · rintro ⟨hok, -⟩
        have := (connectE_isOk_iff d c.1 c.2).mpr hok
        rw [hc] at this
        exact absurd this (by simp)
    | ok d1 =>
      have hok : connOk d.arena d.live (c.1, c.2) := by
        apply (connectE_isOk_iff d c.1 c.2).mp
        rw [hc]
        rfl
      have hd1 := connectE_ok hc
      subst hd1
      rw [ih]
      simp only
      constructor
      · intro hrest
        exact ⟨hok, hrest⟩
      · rintro ⟨-, hrest⟩
        exact hrest

theorem mem_legsOf {cs : List Conn} {l : Leg} :
    l ∈ legsOf cs ↔ ∃ c ∈ cs, l = c.1 ∨ l = c.2 := by
  unfold legsOf
  simp only [List.mem_append, List.mem_map]
  constructor
  · rintro (⟨c, hc, hl⟩ | ⟨c, hc, hl⟩)
    · exact ⟨c, hc, Or.inl hl.symm⟩
    · exact ⟨c, hc, Or.inr hl.symm⟩
  · rintro ⟨c, hc, hl | hl⟩
    · exact Or.inl ⟨c, hc, hl.symm⟩
    · exact Or.inr ⟨c, hc, hl.symm⟩

theorem danglingB_map (f : Nat → Nat) (live : List Conn) (l : Leg)
    (hd : danglingB live l = true)
    (hinj : ∀ c ∈ live, (mapLeg f c.1 = mapLeg f l → c.1 = l) ∧
      (mapLeg f c.2 = mapLeg f l → c.2 = l)) :
    danglingB (live.map (connMap f)) (mapLeg f l) = true := by
  unfold danglingB at hd ⊢
  rw [List.all_eq_true] at hd ⊢
  intro c2 hc2
  obtain ⟨c, hc, hcm⟩ := List.mem_map.mp hc2
  have hdc := hd c hc
  subst hcm
  have h1 : ¬ (connMap f c).1 == mapLeg f l := by
    intro hbeq
    have heq : mapLeg f c.1 = mapLeg f l := beq_iff_eq.mp (by simpa using hbeq)
    have := (hinj c hc).1 heq
    subst this
    simp at hdc
  have h2 : ¬ (connMap f c).2 == mapLeg f l := by
    intro hbeq
    have heq : mapLeg f c.2 = mapLeg f l := beq_iff_eq.mp (by simpa using hbeq)
    have := (hinj c hc).2 heq
    subst this
    simp at hdc
  simp only [Bool.and_eq_true, Bool.not_eq_true']
  constructor
  · exact Bool.not_eq_true _ ▸ (by simpa using h1)
  · exact Bool.not_eq_true _ ▸ (by simpa using h2)

/-- `PairwiseOk` transports along a handle renaming that is injective on the
occurring legs and preserves ranks at the occurring connection handles. -/
theorem PairwiseOk_map (arena1 arena2 : List GNode) (f : Nat → Nat) :
    ∀ (cs live : List Conn),
    (∀ l1 ∈ legsOf (live ++ cs), ∀ l2 ∈ legsOf (live ++ cs),
        mapLeg f l1 = mapLeg f l2 → l1 = l2) →
    (∀ l ∈ legsOf cs, ∀ n1, arena1.get? l.1 = some n1 →
        ∃ n2, arena2.get? (f l.1) = some n2 ∧ n2.rank = n1.rank) →
    PairwiseOk arena1 live cs →
    PairwiseOk arena2 (live.map (connMap f)) (cs.map (connMap f)) := by
  intro cs
  induction cs with
  | nil =>
    intro live _ _ _
    simp [PairwiseOk]
  | cons c rest ih =>
    intro live hinj hrank hpw
    obtain ⟨hok, hrest⟩ := hpw
    have hc1mem : c.1 ∈ legsOf (c :: rest) := mem_legsOf.mpr ⟨c, by simp, Or.inl rfl⟩
    have hc2mem : c.2 ∈ legsOf (c :: rest) := mem_legsOf.mpr ⟨c, by simp, Or.inr rfl⟩
    refine ⟨?_, ?_⟩
    · obtain ⟨⟨n1, hn1, hr1⟩, ⟨n2, hn2, hr2⟩, hne, hd1, hd2⟩ := hok
      obtain ⟨m1, hm1, hmr1⟩ := hrank c.1 hc1mem n1 hn1
      obtain ⟨m2, hm2, hmr2⟩ := hrank c.2 hc2mem n2 hn2
      refine ⟨⟨m1, hm1, by rw [hmr1]; exact hr1⟩, ⟨m2, hm2, by rw [hmr2]; exact hr2⟩,
        ?_, ?_, ?_⟩
      · intro heq
        apply hne
        exact hinj c.1 (by rw [mem_legsOf]; exact ⟨c, by simp, Or.inl rfl⟩)
          c.2 (by rw [mem_legsOf]; exact ⟨c, by simp, Or.inr rfl⟩) heq
      · apply danglingB_map f live c.1 hd1
        intro cl hcl
        constructor
        · intro heq
          exact hinj cl.1 (by rw [mem_legsOf]; exact ⟨cl, by simp [hcl], Or.inl rfl⟩)
            c.1 (by rw [mem_legsOf]; exact ⟨c, by simp, Or.inl rfl⟩) heq
        · intro heq
          exact hinj cl.2 (by rw [mem_legsOf]; exact ⟨cl, by simp [hcl], Or.inr rfl⟩)
            c.1 (by rw [mem_legsOf]; exact ⟨c, by simp, Or.inl rfl⟩) heq
      · apply danglingB_map f live c.2 hd2
        intro cl hcl
        constructor
        · intro heq
          exact hinj cl.1 (by rw [mem_legsOf]; exact ⟨cl, by simp [hcl], Or.inl rfl⟩)
            c.2 (by rw [mem_legsOf]; exact ⟨c, by simp, Or.inr rfl⟩) heq
        · intro heq
          exact hinj cl.2 (by rw [mem_legsOf]; exact ⟨cl, by simp [hcl], Or.inr rfl⟩)
            c.2 (by rw [mem_legsOf]; exact ⟨c, by simp, Or.inr rfl⟩) heq
    · have hmapstep : (live.map (connMap f)) ++ [connMap f c]
          = (live ++ [c]).map (connMap f) := by
        rw [List.map_append]
        rfl
      rw [hmapstep]
      apply ih (live ++ [c])
      · intro l1 hl1 l2 hl2
        apply hinj
        · rw [mem_legsOf] at hl1 ⊢
          obtain ⟨cx, hcx, hor⟩ := hl1
          refine ⟨cx, ?_, hor⟩
          simp only [List.mem_append, List.mem_cons, List.mem_singleton] at hcx ⊢
          tauto
        · rw [mem_legsOf] at hl2 ⊢
          obtain ⟨cx, hcx, hor⟩ := hl2
          refine ⟨cx, ?_, hor⟩
          simp only [List.mem_append, List.mem_cons, List.mem_singleton] at hcx ⊢
          tauto
      · intro l hl
        apply hrank
        rw [mem_legsOf] at hl ⊢
        obtain ⟨cx, hcx, hor⟩ := hl
        exact ⟨cx, by simp [hcx], hor⟩
      · exact hrest


theorem evConns_map (n ket bra : Nat) (f : Nat → Nat) (refs : List Nat)
    (ws : List (List Nat)) :
    evConns n (f ket) (f bra) ((refs.map f).zip ws)
      = (evConns n ket bra (refs.zip ws)).map (connMap f) := by
  unfold evConns
  rw [List.zip_map_left, List.map_append]
  congr 1
  · rw [List.map_flatten, List.map_map, List.map_map]
    congr 1
    apply List.map_congr_left
    intro rw _
    cases rw with
    | mk r w2 =>
      simp only [Function.comp_apply, Prod.map_apply, id_eq]
      rw [List.map_flatten, List.map_map]
      congr 1
  · have hsnd : (((refs.zip ws).map (Prod.map f id)).map Prod.snd)
        = (refs.zip ws).map Prod.snd := by
      rw [List.map_map]
      rfl
    rw [hsnd, List.map_map]
    rfl

theorem evConns_leg_refs (n ket bra : Nat) (rws : List (Nat × List Nat)) :
    ∀ l ∈ legsOf (evConns n ket bra rws),
      l.1 = ket ∨ l.1 = bra ∨ l.1 ∈ rws.map Prod.fst := by
  intro l hl
  rw [mem_legsOf] at hl
  obtain ⟨c, hc, hor⟩ := hl
  unfold evConns at hc
  rw [List.mem_append] at hc
  cases hc with
  | inl hc =>
    rw [List.mem_flatten] at hc
    obtain ⟨blk, hblk, hcblk⟩ := hc
    obtain ⟨rw, hrw, hrwblk⟩ := List.mem_map.mp hblk
    subst hrwblk
    rw [List.mem_flatten] at hcblk
    obtain ⟨pair, hpair, hcpair⟩ := hcblk
    obtain ⟨iw, hiw, hiwpair⟩ := List.mem_map.mp hpair
    subst hiwpair
    have hrwmem : rw.1 ∈ rws.map Prod.fst := List.mem_map.mpr ⟨rw, hrw, rfl⟩
    simp only [List.mem_cons, List.not_mem_nil, or_false] at hcpair
    rcases hcpair with hceq | hceq
    · subst hceq
      rcases hor with h | h
      · rw [h]; exact Or.inr (Or.inr hrwmem)
      · rw [h]; exact Or.inl rfl
    · subst hceq
      rcases hor with h | h
      · rw [h]; exact Or.inr (Or.inl rfl)
      · rw [h]; exact Or.inr (Or.inr hrwmem)
  | inr hc =>
    obtain ⟨w, hw, hweq⟩ := List.mem_map.mp hc
    subst hweq
    rcases hor with h | h
    · rw [h]; exact Or.inr (Or.inl rfl)
    · rw [h]; exact Or.inl rfl


theorem get?_eq_some_getD {α : Type} (l : List α) (i : Nat) (a : α) (h : i < l.length) :
    l.get? i = some (l.getD i a) := by
  rw [List.get?_eq_getElem?, List.getElem?_eq_getElem h, List.getD_eq_getElem?_getD,
    List.getElem?_eq_getElem h]
  rfl

/-- A successful `ev` call on one device transports to any other device with
an empty live set, the same number of wires, a register of the same rank and
tensor, and freshly registered observable nodes of the same ranks and
tensors, yielding the same value. -/
theorem ev_ok_transport (dA dB : Device) (ws : List (List Nat)) (outA : EvOut)
    (m : Nat) (LA LB : Nat)
    (hLAd : LA ≤ dA.arena.length) (hLBd : LB ≤ dB.arena.length)
    (hA : ev dA ((List.range m).map (fun j => LA + j)) ws = .ok outA)
    (hliveA : dA.live = []) (hliveB : dB.live = [])
    (hsA : dA.state_node < LA) (hsB : dB.state_node < LB)
    (hLA : LA + m ≤ dA.arena.length) (hLB : LB + m ≤ dB.arena.length)
    (hn : dB.num_wires = dA.num_wires)
    (hrank : stateRank dB = stateRank dA)
    (hpsi : stateTensor dB = stateTensor dA)
    (hnodes : ∀ j, j < m →
      (dB.arena.getD (LB + j) defaultNode).rank
        = (dA.arena.getD (LA + j) defaultNode).rank ∧
      (dB.arena.getD (LB + j) defaultNode).tensor
        = (dA.arena.getD (LA + j) defaultNode).tensor) :
    ∃ outB, ev dB ((List.range m).map (fun j => LB + j)) ws = .ok outB ∧
      outB.value = outA.value := by
  -- the handle renaming between the two calls
  set f : Nat → Nat := fun r =>
    if r = dA.state_node then dB.state_node
    else if LA ≤ r ∧ r < LA + m then LB + (r - LA)
    else dB.arena.length with hf
  have hfs : f dA.state_node = dB.state_node := by rw [hf]; simp
  have hfobs : ∀ j, j < m → f (LA + j) = LB + j := by
    intro j hj
    rw [hf]
    simp only
    rw [if_neg (by omega), if_pos (by omega)]
    omega
  have hfbra : f dA.arena.length = dB.arena.length := by
    rw [hf]
    simp only
    rw [if_neg (by omega), if_neg (by omega)]
  have hrefsB : (List.range m).map (fun j => LB + j)
      = ((List.range m).map (fun j => LA + j)).map f := by
    rw [List.map_map]
    apply List.map_congr_left
    intro j hj
    rw [List.mem_range] at hj
    exact (hfobs j hj).symm
  -- unfold the successful A call
  unfold ev at hA
  simp only at hA
  cases hfA : foldConnect
      (addNodeT (addNodeRef dA dA.state_node "Ket") dA.num_wires
        (fun g => star (stateTensor (addNodeRef dA dA.state_node "Ket") g)) "Bra").1
      (evConns dA.num_wires dA.state_node
        (addNodeT (addNodeRef dA dA.state_node "Ket") dA.num_wires
          (fun g => star (stateTensor (addNodeRef dA dA.state_node "Ket") g)) "Bra").2
        (((List.range m).map (fun j => LA + j)).zip ws)) with
  | error e => rw [hfA] at hA; exact absurd hA (by simp)
  | ok d3A =>
  have hbraA : (addNodeT (addNodeRef dA dA.state_node "Ket") dA.num_wires
      (fun g => star (stateTensor (addNodeRef dA dA.state_node "Ket") g)) "Bra").2
      = dA.arena.length := addNodeRef_arena_length dA _ _
  have hbraB : (addNodeT (addNodeRef dB dB.state_node "Ket") dB.num_wires
      (fun g => star (stateTensor (addNodeRef dB dB.state_node "Ket") g)) "Bra").2
      = dB.arena.length := addNodeRef_arena_length dB _ _
  -- the A-side wiring succeeded
  have hpwA : PairwiseOk
      (addNodeT (addNodeRef dA dA.state_node "Ket") dA.num_wires
        (fun g => star (stateTensor (addNodeRef dA dA.state_node "Ket") g)) "Bra").1.arena
      []
      (evConns dA.num_wires dA.state_node dA.arena.length
        (((List.range m).map (fun j => LA + j)).zip ws)) := by
    have hok : (foldConnect
        (addNodeT (addNodeRef dA dA.state_node "Ket") dA.num_wires
          (fun g => star (stateTensor (addNodeRef dA dA.state_node "Ket") g)) "Bra").1
        (evConns dA.num_wires dA.state_node
          (addNodeT (addNodeRef dA dA.state_node "Ket") dA.num_wires
            (fun g => star (stateTensor (addNodeRef dA dA.state_node "Ket") g)) "Bra").2
          (((List.range m).map (fun j => LA + j)).zip ws))).isOk = true := by
      rw [hfA]
      rfl
    rw [foldConnect_isOk_iff] at hok
    rw [hbraA] at hok
    have hlv : (addNodeT (addNodeRef dA dA.state_node "Ket") dA.num_wires
        (fun g => star (stateTensor (addNodeRef dA dA.state_node "Ket") g)) "Bra").1.live
        = ([] : List Conn) := hliveA
    rw [hlv] at hok
    exact hok
  -- the classification of legs occurring in the A-side wiring
  have hclass : ∀ l ∈ legsOf (evConns dA.num_wires dA.state_node dA.arena.length
      (((List.range m).map (fun j => LA + j)).zip ws)),
      l.1 = dA.state_node ∨ l.1 = dA.arena.length ∨ ∃ j, j < m ∧ l.1 = LA + j := by
    intro l hl
    have hcl := evConns_leg_refs dA.num_wires dA.state_node dA.arena.length
      (((List.range m).map (fun j => LA + j)).zip ws) l hl
    rcases hcl with h | h | h
    · exact Or.inl h
    · exact Or.inr (Or.inl h)
    · right; right
      obtain ⟨rw, hrw, hr⟩ := List.mem_map.mp h
      have hr1 := (List.of_mem_zip hrw).1
      obtain ⟨j, hj, hjv⟩ := List.mem_map.mp hr1
      rw [List.mem_range] at hj
      exact ⟨j, hj, by rw [← hr, ← hjv]⟩
  -- the renaming is injective on occurring legs
  have hinj : ∀ l1 ∈ legsOf (([] : List Conn) ++ (evConns dA.num_wires dA.state_node
        dA.arena.length (((List.range m).map (fun j => LA + j)).zip ws))),
      ∀ l2 ∈ legsOf (([] : List Conn) ++ (evConns dA.num_wires dA.state_node
        dA.arena.length (((List.range m).map (fun j => LA + j)).zip ws))),
      mapLeg f l1 = mapLeg f l2 → l1 = l2 := by
    intro l1 hl1 l2 hl2 heq
    rw [List.nil_append] at hl1 hl2
    have hc1 := hclass l1 hl1
    have hc2 := hclass l2 hl2
    have heq1 : f l1.1 = f l2.1 := by
      have hx := congrArg Prod.fst heq
      simpa [mapLeg] using hx
    have heq2 : l1.2 = l2.2 := by
      have hx := congrArg Prod.snd heq
      simpa [mapLeg] using hx
    have hr : l1.1 = l2.1 := by
      rcases hc1 with h1 | h1 | ⟨j1, hj1, h1⟩ <;>
        rcases hc2 with h2 | h2 | ⟨j2, hj2, h2⟩ <;>
        rw [h1, h2] at heq1 ⊢
      · rw [hfs, hfbra] at heq1; omega
      · rw [hfs, hfobs j2 hj2] at heq1; omega
      · rw [hfbra, hfs] at heq1; omega
      · rw [hfbra, hfobs j2 hj2] at heq1; omega
      · rw [hfobs j1 hj1, hfs] at heq1; omega
      · rw [hfobs j1 hj1, hfbra] at heq1; omega
      · rw [hfobs j1 hj1, hfobs j2 hj2] at heq1; omega
    have : l1 = (l1.1, l1.2) := rfl
    rw [this, hr, heq2]
  -- ranks are preserved at occurring handles
  have hrankmap : ∀ l ∈ legsOf (evConns dA.num_wires dA.state_node dA.arena.length
      (((List.range m).map (fun j => LA + j)).zip ws)),
      ∀ n1, (addNodeT (addNodeRef dA dA.state_node "Ket") dA.num_wires
        (fun g => star (stateTensor (addNodeRef dA dA.state_node "Ket") g)) "Bra").1.arena.get?
          l.1 = some n1 →
      ∃ n2, (addNodeT (addNodeRef dB dB.state_node "Ket") dB.num_wires
        (fun g => star (stateTensor (addNodeRef dB dB.state_node "Ket") g)) "Bra").1.arena.get?
          (f l.1) = some n2 ∧ n2.rank = n1.rank := by
    intro l hl n1 hn1
    have haT : ∀ (X : Device) (r : Nat) (T : CTensor) (nm : String),
        (addNodeT X r T nm).1.arena = X.arena ++ [GNode.mk r T nm] := fun _ _ _ _ => rfl
    rw [haT] at hn1
    have hlA1 := addNodeRef_arena_length dA dA.state_node "Ket"
    have hlB1 := addNodeRef_arena_length dB dB.state_node "Ket"
    have hgetB : ∀ i, i < dB.arena.length + 1 →
        ((addNodeRef dB dB.state_node "Ket").arena ++ [GNode.mk dB.num_wires
          (fun g => star (stateTensor (addNodeRef dB dB.state_node "Ket") g)) "Bra"]).get? i
        = some (((addNodeRef dB dB.state_node "Ket").arena ++ [GNode.mk dB.num_wires
          (fun g => star (stateTensor (addNodeRef dB dB.state_node "Ket") g)) "Bra"]).getD i
            defaultNode) := by
      intro i hi
      apply get?_eq_some_getD
      simp [hlB1]
      omega
    have hn1v : n1 = ((addNodeRef dA dA.state_node "Ket").arena ++ [GNode.mk dA.num_wires
        (fun g => star (stateTensor (addNodeRef dA dA.state_node "Ket") g)) "Bra"]).getD l.1
          defaultNode := by
      rw [List.getD_eq_getElem?_getD, ← List.get?_eq_getElem?, hn1]
      rfl
    have hcl := hclass l hl
    rcases hcl with h | h | ⟨j, hj, h⟩
    · -- the ket leg: the register node
      rw [haT, h, hfs]
      refine ⟨_, hgetB dB.state_node (by omega), ?_⟩
      rw [hn1v, h]
      rw [getD_append_lt _ _ _ _ (by rw [hlB1]; omega), getD_append_lt _ _ _ _ (by rw [hlA1]; omega)]
      have h1 := (addNodeRef_getD dB dB.state_node "Ket" dB.state_node).1
      have h2 := (addNodeRef_getD dA dA.state_node "Ket" dA.state_node).1
      rw [h1, h2]
      exact hrank
    · -- the bra leg
      rw [haT, h, hfbra]
      refine ⟨_, hgetB dB.arena.length (by omega), ?_⟩
      rw [hn1v, h]
      have e1 : dB.arena.length = (addNodeRef dB dB.state_node "Ket").arena.length := hlB1.symm
      have e2 : dA.arena.length = (addNodeRef dA dA.state_node "Ket").arena.length := hlA1.symm
      rw [e1, e2, getD_concat_self, getD_concat_self]
      exact hn
    · -- an observable node leg
      rw [haT, h, hfobs j hj]
      refine ⟨_, hgetB (LB + j) (by omega), ?_⟩
      rw [hn1v, h]
      rw [getD_append_lt _ _ _ _ (by rw [hlB1]; omega), getD_append_lt _ _ _ _ (by rw [hlA1]; omega)]
      rw [(addNodeRef_getD dB dB.state_node "Ket" (LB + j)).1,
        (addNodeRef_getD dA dA.state_node "Ket" (LA + j)).1]
      exact (hnodes j hj).1
  -- transport the wiring conditions to the B side
  have hpwB : PairwiseOk
      (addNodeT (addNodeRef dB dB.state_node "Ket") dB.num_wires
        (fun g => star (stateTensor (addNodeRef dB dB.state_node "Ket") g)) "Bra").1.arena
      []
      (evConns dB.num_wires dB.state_node dB.arena.length
        (((List.range m).map (fun j => LB + j)).zip ws)) := by
    have hmapped := PairwiseOk_map
      (addNodeT (addNodeRef dA dA.state_node "Ket") dA.num_wires
        (fun g => star (stateTensor (addNodeRef dA dA.state_node "Ket") g)) "Bra").1.arena
      (addNodeT (addNodeRef dB dB.state_node "Ket") dB.num_wires
        (fun g => star (stateTensor (addNodeRef dB dB.state_node "Ket") g)) "Bra").1.arena
      f
      (evConns dA.num_wires dA.state_node dA.arena.length
        (((List.range m).map (fun j => LA + j)).zip ws))
      [] hinj hrankmap hpwA
    rw [List.map_nil] at hmapped
    have hconns : evConns dB.num_wires dB.state_node dB.arena.length
        (((List.range m).map (fun j => LB + j)).zip ws)
        = (evConns dA.num_wires dA.state_node dA.arena.length
            (((List.range m).map (fun j => LA + j)).zip ws)).map (connMap f) := by
      rw [hn, hrefsB, ← hfs, ← hfbra]
      exact evConns_map dA.num_wires dA.state_node dA.arena.length f
        ((List.range m).map (fun j => LA + j)) ws
    rw [hconns]
    exact hmapped
  -- hence the B-side wiring succeeds
  have hfB : (foldConnect
      (addNodeT (addNodeRef dB dB.state_node "Ket") dB.num_wires
        (fun g => star (stateTensor (addNodeRef dB dB.state_node "Ket") g)) "Bra").1
      (evConns dB.num_wires dB.state_node
        (addNodeT (addNodeRef dB dB.state_node "Ket") dB.num_wires
          (fun g => star (stateTensor (addNodeRef dB dB.state_node "Ket") g)) "Bra").2
        (((List.range m).map (fun j => LB + j)).zip ws))).isOk = true := by
    rw [foldConnect_isOk_iff]
    rw [hbraB]
    have hlv : (addNodeT (addNodeRef dB dB.state_node "Ket") dB.num_wires
        (fun g => star (stateTensor (addNodeRef dB dB.state_node "Ket") g)) "Bra").1.live
        = ([] : List Conn) := hliveB
    rw [hlv]
    exact hpwB
  cases hfB2 : foldConnect
      (addNodeT (addNodeRef dB dB.state_node "Ket") dB.num_wires
        (fun g => star (stateTensor (addNodeRef dB dB.state_node "Ket") g)) "Bra").1
      (evConns dB.num_wires dB.state_node
        (addNodeT (addNodeRef dB dB.state_node "Ket") dB.num_wires
          (fun g => star (stateTensor (addNodeRef dB dB.state_node "Ket") g)) "Bra").2
        (((List.range m).map (fun j => LB + j)).zip ws)) with
  | error e =>
    rw [hfB2] at hfB
    exact absurd hfB (by simp)
  | ok d3B =>
  cases hB : ev dB ((List.range m).map (fun j => LB + j)) ws with
  | error e2 =>
    exfalso
    unfold ev at hB
    simp only at hB
    rw [hfB2] at hB
    exact absurd hB (by simp)
  | ok outB =>
  refine ⟨outB, rfl, ?_⟩
  -- both values are the Einstein contraction of the same data
  have hAraw : ev dA ((List.range m).map (fun j => LA + j)) ws = .ok outA := by
    unfold ev
    simp only
    rw [hfA]
    rw [hfA] at hA
    exact hA
  have hvA := (ev_ok_spec hAraw).2.2.2.2.2.2.2 (by
    intro r hr
    obtain ⟨j, hj, hjr⟩ := List.mem_map.mp hr
    rw [List.mem_range] at hj
    omega)
  have hvB := (ev_ok_spec hB).2.2.2.2.2.2.2 (by
    intro r hr
    obtain ⟨j, hj, hjr⟩ := List.mem_map.mp hr
    rw [List.mem_range] at hj
    omega)
  rw [hvA, hvB, hn, hpsi]
  congr 2
  apply List.ext_getElem
  · simp
  · intro i h1 h2
    simp only [List.getElem_map, List.getElem_zip, List.getElem_range]
    have hi : i < m := by
      simp [List.length_zip] at h1
      omega
    have hw : i < ws.length := by
      simp [List.length_zip] at h1
      omega
    rw [List.getD_eq_getElem?_getD]
    rw [List.getD_eq_getElem?_getD]
    rw [List.getElem?_eq_getElem (by omega), List.getElem?_eq_getElem (by omega)]
    simp only [Option.getD_some]
    rw [show (dB.arena[LB + i]).tensor = (dB.arena.getD (LB + i) defaultNode).tensor from by
      rw [List.getD_eq_getElem?_getD, List.getElem?_eq_getElem (by omega)]
      simp only [Option.getD_some]]
    rw [show (dA.arena[LA + i]).tensor = (dA.arena.getD (LA + i) defaultNode).tensor from by
      rw [List.getD_eq_getElem?_getD, List.getElem?_eq_getElem (by omega)]
      simp only [Option.getD_some]]
    rw [(hnodes i hi).2]

/-- Two devices that hold the same State Register data and are both in the
clean inter-measurement configuration: no live edges, a valid register
handle, and the same wire count, shot count, register rank and register
tensor. -/
def RegSim (d d2 : Device) : Prop :=
  d2.live = [] ∧ d2.state_node < d2.arena.length ∧
  d2.num_wires = d.num_wires ∧ d2.shots = d.shots ∧
  stateRank d2 = stateRank d ∧ stateTensor d2 = stateTensor d

/-- A successful `ev` call leaves the State Register tensor and rank
untouched. -/
theorem ev_ok_statePres {d : Device} {refs : List Nat} {ws : List (List Nat)}
    {out : EvOut} (h : ev d refs ws = .ok out) (hs : d.state_node < d.arena.length) :
    stateTensor out.dev = stateTensor d ∧ stateRank out.dev = stateRank d := by
  have hspec := ev_ok_spec h
  have h1 := hspec.2.2.2.2.2.1 d.state_node hs
  constructor
  · show (out.dev.arena.getD out.dev.state_node defaultNode).tensor
      = (d.arena.getD d.state_node defaultNode).tensor
    rw [hspec.2.2.1]
    exact h1.1
  · show (out.dev.arena.getD out.dev.state_node defaultNode).rank
      = (d.arena.getD d.state_node defaultNode).rank
    rw [hspec.2.2.1]
    exact h1.2

/-- One full measurement round — register a batch of observable tensors with
`create_nodes_from_tensors` and run `ev` on the fresh handles — transported
to any device holding the same register data: the round succeeds there with
the same value, and the register survives unchanged. -/
theorem ev_round (d d2 : Device) (items : List ((CTensor × List Nat) × String))
    (ws : List (List Nat)) (out : EvOut)
    (hld : d.live = []) (hsd : d.state_node < d.arena.length)
    (hsim : RegSim d d2)
    (h : ev (addNodesL d items).1 (addNodesL d items).2 ws = .ok out) :
    ∃ out2, ev (addNodesL d2 items).1 (addNodesL d2 items).2 ws = .ok out2 ∧
      out2.value = out.value ∧
      out2.dev.state_node = d2.state_node ∧ out2.dev.shots = d2.shots ∧
      out2.dev.num_wires = d2.num_wires ∧ out2.dev.free_edges = d2.free_edges ∧
      out2.dev.live = [] ∧ stateTensor out2.dev = stateTensor d2 ∧
      stateRank out2.dev = stateRank d2 ∧
      out2.dev.state_node < out2.dev.arena.length := by
  obtain ⟨hl2, hs2, hn2, hsh2, hrk2, hψ2⟩ := hsim
  have hAlen := addNodesL_arena_length items d
  have hBlen := addNodesL_arena_length items d2
  rw [(addNodesL_spec items d).2.1] at h
  obtain ⟨outB, hB, hvB⟩ := ev_ok_transport (addNodesL d items).1 (addNodesL d2 items).1
    ws out items.length d.arena.length d2.arena.length
    (by rw [hAlen]; omega) (by rw [hBlen]; omega) h
    (by rw [(addNodesL_spec items d).2.2.2.2.2.2]; exact hld)
    (by rw [(addNodesL_spec items d2).2.2.2.2.2.2]; exact hl2)
    (by rw [(addNodesL_spec items d).2.2.2.2.1]; exact hsd)
    (by rw [(addNodesL_spec items d2).2.2.2.2.1]; exact hs2)
    (by rw [hAlen]) (by rw [hBlen])
    (by rw [(addNodesL_spec items d).2.2.1, (addNodesL_spec items d2).2.2.1]; exact hn2)
    (by rw [addNodesL_stateRank items d hsd, addNodesL_stateRank items d2 hs2]; exact hrk2)
    (by rw [addNodesL_stateTensor items d hsd, addNodesL_stateTensor items d2 hs2]; exact hψ2)
    (by
      intro j hj
      rw [addNodesL_getD items d2 j hj, addNodesL_getD items d j hj]
      exact ⟨rfl, rfl⟩)
  rw [← (addNodesL_spec items d2).2.1] at hB
  have hspecB := ev_ok_spec hB
  have hsdB : (addNodesL d2 items).1.state_node < (addNodesL d2 items).1.arena.length := by
    rw [(addNodesL_spec items d2).2.2.2.2.1, hBlen]
    omega
  have hpres := ev_ok_statePres hB hsdB
  refine ⟨outB, hB, hvB, ?_, ?_, ?_, ?_, ?_, ?_, ?_, ?_⟩
  · rw [hspecB.2.2.1]
    exact (addNodesL_spec items d2).2.2.2.2.1
  · rw [hspecB.2.1]
    exact (addNodesL_spec items d2).2.2.2.1
  · rw [hspecB.1]
    exact (addNodesL_spec items d2).2.2.1
  · rw [hspecB.2.2.2.1]
    exact (addNodesL_spec items d2).2.2.2.2.2.1
  · apply hspecB.2.2.2.2.2.2.1
    rw [(addNodesL_spec items d2).2.2.2.2.2.2]
    exact hl2
  · rw [hpres.1]
    exact addNodesL_stateTensor items d2 hs2
  · rw [hpres.2]
    exact addNodesL_stateRank items d2 hs2
  · have e1 := hspecB.2.2.1
    have e2 := hspecB.2.2.2.2.1
    omega

/-- `expval`'s body transported to any device with the same register data:
it succeeds with the same value and hands back a device whose register is
again unchanged. -/
theorem expvalCore_transport (d d2 : Device) (os : List String) (ws : List (List Nat))
    (ps : List (List Param)) (out : EvOut)
    (hld : d.live = []) (hsd : d.state_node < d.arena.length) (hsim : RegSim d d2)
    (h : expvalCore d os ws ps = .ok out) :
    ∃ out2, expvalCore d2 os ws ps = .ok out2 ∧ out2.value = out.value ∧
      out2.dev.state_node = d2.state_node ∧ out2.dev.shots = d2.shots ∧
      out2.dev.num_wires = d2.num_wires ∧ out2.dev.free_edges = d2.free_edges ∧
      out2.dev.live = [] ∧ stateTensor out2.dev = stateTensor d2 ∧
      stateRank out2.dev = stateRank d2 ∧
      out2.dev.state_node < out2.dev.arena.length := by
  unfold expvalCore at h ⊢
  cases hms : resolveAll (os.zip ps) with
  | error e => rw [hms] at h; exact absurd h (by simp)
  | ok ms =>
  rw [hms] at h
  simp only at h ⊢
  cases hts : reshapeAll (ms.zip ws) with
  | error e => rw [hts] at h; exact absurd h (by simp)
  | ok ts =>
  rw [hts] at h
  simp only at h ⊢
  exact ev_round d d2 (ts.zip os) ws out hld hsd hsim h

/-- The per-joint-outcome probability loop of `sample` transported to any
device with the same register data: the same probability list comes out,
and the register survives the whole loop. -/
theorem sampleProbsLoop_transport : ∀ (pls : List (List ((Nat × CMatrix) × List Nat)))
    (d d2 : Device) (pr : List ℝ × Device),
    sampleProbsLoop d pls = .ok pr →
    d.live = [] → d.state_node < d.arena.length → RegSim d d2 →
    ∃ pr2, sampleProbsLoop d2 pls = .ok pr2 ∧ pr2.1 = pr.1 ∧
      pr2.2.state_node = d2.state_node ∧ pr2.2.shots = d2.shots ∧
      pr2.2.num_wires = d2.num_wires ∧ pr2.2.free_edges = d2.free_edges ∧
      pr2.2.live = [] ∧ stateTensor pr2.2 = stateTensor d2 ∧
      stateRank pr2.2 = stateRank d2 ∧ pr2.2.state_node < pr2.2.arena.length := by
  intro pls
  induction pls with
  | nil =>
    intro d d2 pr h hld hsd hsim
    obtain ⟨hl2, hs2, hn2, hsh2, hrk2, hψ2⟩ := hsim
    unfold sampleProbsLoop at h
    cases h
    exact ⟨([], d2), rfl, rfl, rfl, rfl, rfl, rfl, hl2, rfl, rfl, hs2⟩
  | cons projs rest ih =>
    intro d d2 pr h hld hsd hsim
    obtain ⟨hl2, hs2, hn2, hsh2, hrk2, hψ2⟩ := hsim
    unfold sampleProbsLoop at h ⊢
    cases hts : reshapeAll projs with
    | error e => rw [hts] at h; exact absurd h (by simp)
    | ok ts =>
    rw [hts] at h
    simp only at h ⊢
    cases hev : ev (addNodesL d (ts.map (fun t => (t, "UnnamedNode")))).1
        (addNodesL d (ts.map (fun t => (t, "UnnamedNode")))).2 (projs.map Prod.snd) with
    | error e => rw [hev] at h; exact absurd h (by simp)
    | ok o1 =>
    rw [hev] at h
    simp only at h
    cases hrec : sampleProbsLoop o1.dev rest with
    | error e => rw [hrec] at h; exact absurd h (by simp)
    | ok prr =>
    rw [hrec] at h
    cases h
    obtain ⟨o1', hB, hv', hsn', hsh', hnw', hfe', hlv', hψ', hrk', hlt'⟩ :=
      ev_round d d2 (ts.map (fun t => (t, "UnnamedNode"))) (projs.map Prod.snd) o1
        hld hsd ⟨hl2, hs2, hn2, hsh2, hrk2, hψ2⟩ hev
    have hspecA := ev_ok_spec hev
    have hstdr : (addNodesL d (ts.map (fun t => (t, "UnnamedNode")))).1.state_node
        < (addNodesL d (ts.map (fun t => (t, "UnnamedNode")))).1.arena.length := by
      rw [(addNodesL_spec (ts.map (fun t => (t, "UnnamedNode"))) d).2.2.2.2.1,
        addNodesL_arena_length]
      omega
    have hldo1 : o1.dev.live = [] := by
      apply hspecA.2.2.2.2.2.2.1
      rw [(addNodesL_spec (ts.map (fun t => (t, "UnnamedNode"))) d).2.2.2.2.2.2]
      exact hld
    have hsdo1 : o1.dev.state_node < o1.dev.arena.length := by
      have e1 := hspecA.2.2.1
      have e2 := hspecA.2.2.2.2.1
      omega
    have hpsA := ev_ok_statePres hev hstdr
    have hsimo1 : RegSim o1.dev o1'.dev := by
      refine ⟨hlv', hlt', ?_, ?_, ?_, ?_⟩
      · rw [hnw', hspecA.1,
          (addNodesL_spec (ts.map (fun t => (t, "UnnamedNode"))) d).2.2.1]
        exact hn2
      · rw [hsh', hspecA.2.1,
          (addNodesL_spec (ts.map (fun t => (t, "UnnamedNode"))) d).2.2.2.1]
        exact hsh2
      · rw [hrk', hpsA.2, addNodesL_stateRank (ts.map (fun t => (t, "UnnamedNode"))) d hsd]
        exact hrk2
      · rw [hψ', hpsA.1, addNodesL_stateTensor (ts.map (fun t => (t, "UnnamedNode"))) d hsd]
        exact hψ2
    obtain ⟨pr2, hrec2, hval2, hsnf, hshf, hnwf, hfef, hlvf, hψf, hrkf, hltf⟩ :=
      ih o1.dev o1'.dev prr hrec hldo1 hsdo1 hsimo1
    rw [hB]
    simp only
    rw [hrec2]
    simp only
    refine ⟨(o1'.value :: pr2.1, pr2.2), rfl, ?_, ?_, ?_, ?_, ?_, hlvf, ?_, ?_, hltf⟩
    · show o1'.value :: pr2.1 = o1.value :: prr.1
      rw [hv', hval2]
    · rw [show (o1'.value :: pr2.1, pr2.2).2 = pr2.2 from rfl, hsnf, hsn']
    · rw [show (o1'.value :: pr2.1, pr2.2).2 = pr2.2 from rfl, hshf, hsh']
    · rw [show (o1'.value :: pr2.1, pr2.2).2 = pr2.2 from rfl, hnwf, hnw']
    · rw [show (o1'.value :: pr2.1, pr2.2).2 = pr2.2 from rfl, hfef, hfe']
    · rw [show (o1'.value :: pr2.1, pr2.2).2 = pr2.2 from rfl, hψf, hψ']
    · rw [show (o1'.value :: pr2.1, pr2.2).2 = pr2.2 from rfl, hrkf, hrk']

/-- `sample`'s body transported to any device with the same register data
and the same randomness stream: the same draws come out, and the register
survives unchanged. -/
theorem sampleCore_transport (d d2 : Device) (os : List String) (ws : List (List Nat))
    (ps : List (List Param)) (picks : Nat → Nat) (s : List ℝ × Device)
    (hld : d.live = []) (hsd : d.state_node < d.arena.length) (hsim : RegSim d d2)
    (h : sampleCore d os ws ps picks = .ok s) :
    ∃ s2, sampleCore d2 os ws ps picks = .ok s2 ∧ s2.1 = s.1 ∧
      s2.2.state_node = d2.state_node ∧ s2.2.shots = d2.shots ∧
      s2.2.num_wires = d2.num_wires ∧ s2.2.free_edges = d2.free_edges ∧
      s2.2.live = [] ∧ stateTensor s2.2 = stateTensor d2 ∧
      stateRank s2.2 = stateRank d2 ∧ s2.2.state_node < s2.2.arena.length := by
  obtain ⟨hl2, hs2, hn2, hsh2, hrk2, hψ2⟩ := hsim
  unfold sampleCore at h ⊢
  cases hms : resolveAll (os.zip ps) with
  | error e => rw [hms] at h; exact absurd h (by simp)
  | ok ms =>
  rw [hms] at h
  simp only at h ⊢
  cases hloop : sampleProbsLoop d (listProd (((ms.map (fun dm =>
      (dm.1, spectralDecomp dm.1 dm.2))).zip ws).map
      (fun t => t.1.2.map (fun ep => ((t.1.1, ep.2), t.2))))) with
  | error e => rw [hloop] at h; exact absurd h (by simp)
  | ok pr =>
  rw [hloop] at h
  cases h
  obtain ⟨pr2, hloop2, hval2, hsnf, hshf, hnwf, hfef, hlvf, hψf, hrkf, hltf⟩ :=
    sampleProbsLoop_transport (listProd (((ms.map (fun dm =>
        (dm.1, spectralDecomp dm.1 dm.2))).zip ws).map
        (fun t => t.1.2.map (fun ep => ((t.1.1, ep.2), t.2))))) d d2 pr hloop hld hsd
      ⟨hl2, hs2, hn2, hsh2, hrk2, hψ2⟩
  rw [hloop2]
  simp only
  refine ⟨_, rfl, ?_, hsnf, hshf, hnwf, hfef, hlvf, hψf, hrkf, hltf⟩
  show randomChoice ((listProd ((ms.map (fun dm =>
      (dm.1, spectralDecomp dm.1 dm.2))).map (fun t => t.2.map Prod.fst))).map
      (fun l : List ℝ => l.prod)) d2.shots pr2.1 picks
    = randomChoice ((listProd ((ms.map (fun dm =>
      (dm.1, spectralDecomp dm.1 dm.2))).map (fun t => t.2.map Prod.fst))).map
      (fun l : List ℝ => l.prod)) d.shots pr.1 picks
  rw [hval2, hsh2]

/-- `var`'s body transported to any device with the same register data: the
two-`ev` round succeeds there with the same variance, and the register
survives unchanged. -/
theorem varCore_transport (d d2 : Device) (os : List String) (ws : List (List Nat))
    (ps : List (List Param)) (r : ℝ × Device)
    (hld : d.live = []) (hsd : d.state_node < d.arena.length) (hsim : RegSim d d2)
    (h : varCore d os ws ps = .ok r) :
    ∃ r2, varCore d2 os ws ps = .ok r2 ∧ r2.1 = r.1 ∧
      r2.2.state_node = d2.state_node ∧ r2.2.shots = d2.shots ∧
      r2.2.num_wires = d2.num_wires ∧ r2.2.free_edges = d2.free_edges ∧
      r2.2.live = [] ∧ stateTensor r2.2 = stateTensor d2 ∧
      stateRank r2.2 = stateRank d2 ∧ r2.2.state_node < r2.2.arena.length := by
  obtain ⟨hl2, hs2, hn2, hsh2, hrk2, hψ2⟩ := hsim
  unfold varCore at h ⊢
  cases hms : resolveAll (os.zip ps) with
  | error e => rw [hms] at h; exact absurd h (by simp)
  | ok ms =>
  rw [hms] at h
  simp only at h ⊢
  cases hts : reshapeAll (ms.zip ws) with
  | error e => rw [hts] at h; exact absurd h (by simp)
  | ok ts =>
  rw [hts] at h
  simp only at h ⊢
  cases hts2 : reshapeAll ((ms.map (fun dm => (dm.1, matMul dm.1 dm.2 dm.2))).zip ws) with
  | error e => rw [hts2] at h; exact absurd h (by simp)
  | ok ts2 =>
  rw [hts2] at h
  simp only at h ⊢
  cases hev1 : ev (addNodesL (addNodesL d (ts.zip os)).1 (ts2.zip os)).1
      (addNodesL (addNodesL d (ts.zip os)).1 (ts2.zip os)).2 ws with
  | error e => rw [hev1] at h; exact absurd h (by simp)
  | ok o1 =>
  rw [hev1] at h
  simp only at h
  cases hev2 : ev o1.dev (addNodesL d (ts.zip os)).2 ws with
  | error e => rw [hev2] at h; exact absurd h (by simp)
  | ok o2 =>
  rw [hev2] at h
  simp only at h
  cases h
  have hstdrA : (addNodesL d (ts.zip os)).1.state_node
      < (addNodesL d (ts.zip os)).1.arena.length := by
    rw [(addNodesL_spec (ts.zip os) d).2.2.2.2.1, addNodesL_arena_length]
    omega
  have hstdrB : (addNodesL d2 (ts.zip os)).1.state_node
      < (addNodesL d2 (ts.zip os)).1.arena.length := by
    rw [(addNodesL_spec (ts.zip os) d2).2.2.2.2.1, addNodesL_arena_length]
    omega
  have hldA1 : (addNodesL d (ts.zip os)).1.live = [] := by
    rw [(addNodesL_spec (ts.zip os) d).2.2.2.2.2.2]
    exact hld
  have hldB1 : (addNodesL d2 (ts.zip os)).1.live = [] := by
    rw [(addNodesL_spec (ts.zip os) d2).2.2.2.2.2.2]
    exact hl2
  have hsimA1B1 : RegSim (addNodesL d (ts.zip os)).1 (addNodesL d2 (ts.zip os)).1 := by
    refine ⟨hldB1, hstdrB, ?_, ?_, ?_, ?_⟩
    · rw [(addNodesL_spec (ts.zip os) d).2.2.1, (addNodesL_spec (ts.zip os) d2).2.2.1]
      exact hn2
    · rw [(addNodesL_spec (ts.zip os) d).2.2.2.1, (addNodesL_spec (ts.zip os) d2).2.2.2.1]
      exact hsh2
    · rw [addNodesL_stateRank (ts.zip os) d hsd, addNodesL_stateRank (ts.zip os) d2 hs2]
      exact hrk2
    · rw [addNodesL_stateTensor (ts.zip os) d hsd, addNodesL_stateTensor (ts.zip os) d2 hs2]
      exact hψ2
  obtain ⟨o1', hB1, hv1', hsn1', hsh1', hnw1', hfe1', hlv1', hψ1', hrk1', hlt1'⟩ :=
    ev_round (addNodesL d (ts.zip os)).1 (addNodesL d2 (ts.zip os)).1 (ts2.zip os) ws o1
      hldA1 hstdrA hsimA1B1 hev1
  have hspec1 := ev_ok_spec hev1
  have hspec1' := ev_ok_spec hB1
  have hstdrA2 : (addNodesL (addNodesL d (ts.zip os)).1 (ts2.zip os)).1.state_node
      < (addNodesL (addNodesL d (ts.zip os)).1 (ts2.zip os)).1.arena.length := by
    rw [(addNodesL_spec (ts2.zip os) (addNodesL d (ts.zip os)).1).2.2.2.2.1,
      addNodesL_arena_length]
    omega
  have hpsA1 := ev_ok_statePres hev1 hstdrA2
  rw [(addNodesL_spec (ts.zip os) d).2.1] at hev2
  obtain ⟨o2', hB2, hv2'⟩ := ev_ok_transport o1.dev o1'.dev ws o2 (ts.zip os).length
    d.arena.length d2.arena.length
    (by
      rw [hspec1.2.2.2.2.1, addNodesL_arena_length, addNodesL_arena_length]
      omega)
    (by
      rw [hspec1'.2.2.2.2.1, addNodesL_arena_length, addNodesL_arena_length]
      omega)
    hev2
    (by
      apply hspec1.2.2.2.2.2.2.1
      rw [(addNodesL_spec (ts2.zip os) (addNodesL d (ts.zip os)).1).2.2.2.2.2.2]
      exact hldA1)
    hlv1'
    (by
      rw [hspec1.2.2.1, (addNodesL_spec (ts2.zip os) (addNodesL d (ts.zip os)).1).2.2.2.2.1,
        (addNodesL_spec (ts.zip os) d).2.2.2.2.1]
      exact hsd)
    (by
      rw [hsn1', (addNodesL_spec (ts.zip os) d2).2.2.2.2.1]
      exact hs2)
    (by
      rw [hspec1.2.2.2.2.1, addNodesL_arena_length, addNodesL_arena_length]
      omega)
    (by
      rw [hspec1'.2.2.2.2.1, addNodesL_arena_length, addNodesL_arena_length]
      omega)
    (by
      rw [hnw1', hspec1.1,
        (addNodesL_spec (ts2.zip os) (addNodesL d (ts.zip os)).1).2.2.1,
        (addNodesL_spec (ts.zip os) d).2.2.1, (addNodesL_spec (ts.zip os) d2).2.2.1]
      exact hn2)
    (by
      rw [hrk1', hpsA1.2,
        addNodesL_stateRank (ts2.zip os) (addNodesL d (ts.zip os)).1 hstdrA,
        addNodesL_stateRank (ts.zip os) d hsd, addNodesL_stateRank (ts.zip os) d2 hs2]
      exact hrk2)
    (by
      rw [hψ1', hpsA1.1,
        addNodesL_stateTensor (ts2.zip os) (addNodesL d (ts.zip os)).1 hstdrA,
        addNodesL_stateTensor (ts.zip os) d hsd, addNodesL_stateTensor (ts.zip os) d2 hs2]
      exact hψ2)
    (by
      intro j hj
      have hltA1 : d.arena.length + j < (addNodesL d (ts.zip os)).1.arena.length := by
        rw [addNodesL_arena_length]
        omega
      have hltB1 : d2.arena.length + j < (addNodesL d2 (ts.zip os)).1.arena.length := by
        rw [addNodesL_arena_length]
        omega
      have hltA2 : d.arena.length + j
          < (addNodesL (addNodesL d (ts.zip os)).1 (ts2.zip os)).1.arena.length := by
        rw [addNodesL_arena_length, addNodesL_arena_length]
        omega
      have hltB2 : d2.arena.length + j
          < (addNodesL (addNodesL d2 (ts.zip os)).1 (ts2.zip os)).1.arena.length := by
        rw [addNodesL_arena_length, addNodesL_arena_length]
        omega
      have hgA := hspec1.2.2.2.2.2.1 (d.arena.length + j) hltA2
      have hgB := hspec1'.2.2.2.2.2.1 (d2.arena.length + j) hltB2
      constructor
      · rw [hgB.2, hgA.2,
          (addNodesL_spec (ts2.zip os) (addNodesL d2 (ts.zip os)).1).1,
          (addNodesL_spec (ts2.zip os) (addNodesL d (ts.zip os)).1).1,
          getD_append_lt _ _ _ _ hltB1, getD_append_lt _ _ _ _ hltA1,
          addNodesL_getD (ts.zip os) d2 j hj, addNodesL_getD (ts.zip os) d j hj]
      · rw [hgB.1, hgA.1,
          (addNodesL_spec (ts2.zip os) (addNodesL d2 (ts.zip os)).1).1,
          (addNodesL_spec (ts2.zip os) (addNodesL d (ts.zip os)).1).1,
          getD_append_lt _ _ _ _ hltB1, getD_append_lt _ _ _ _ hltA1,
          addNodesL_getD (ts.zip os) d2 j hj, addNodesL_getD (ts.zip os) d j hj])
  rw [← (addNodesL_spec (ts.zip os) d2).2.1] at hB2
  have hspec2' := ev_ok_spec hB2
  have hp2 := ev_ok_statePres hB2 hlt1'
  rw [hB1]
  simp only
  rw [hB2]
  simp only
  refine ⟨_, rfl, ?_, ?_, ?_, ?_, ?_, ?_, ?_, ?_, ?_⟩
  · show o1'.value - o2'.value ^ 2 = o1.value - o2.value ^ 2
    rw [hv1', hv2']
  · show o2'.dev.state_node = d2.state_node
    rw [hspec2'.2.2.1, hsn1', (addNodesL_spec (ts.zip os) d2).2.2.2.2.1]
  · show o2'.dev.shots = d2.shots
    rw [hspec2'.2.1, hsh1', (addNodesL_spec (ts.zip os) d2).2.2.2.1]
  · show o2'.dev.num_wires = d2.num_wires
    rw [hspec2'.1, hnw1', (addNodesL_spec (ts.zip os) d2).2.2.1]
  · show o2'.dev.free_edges = d2.free_edges
    rw [hspec2'.2.2.2.1, hfe1', (addNodesL_spec (ts.zip os) d2).2.2.2.2.2.1]
  · show o2'.dev.live = []
    apply hspec2'.2.2.2.2.2.2.1
    exact hlv1'
  · show stateTensor o2'.dev = stateTensor d2
    rw [hp2.1, hψ1', addNodesL_stateTensor (ts.zip os) d2 hs2]
  · show stateRank o2'.dev = stateRank d2
    rw [hp2.2, hrk1', addNodesL_stateRank (ts.zip os) d2 hs2]
  · show o2'.dev.state_node < o2'.dev.arena.length
    have e1 := hspec2'.2.2.1
    have e2 := hspec2'.2.2.2.2.1
    omega

/-- The readonly property for the three measurement bodies at once: each
successful call leaves the State Register untouched and an identical second
call succeeds with the same result. -/
theorem meas_readonly_core (d : Device) (os : List String) (ws : List (List Nat))
    (ps : List (List Param)) (picks : Nat → Nat)
    (hld : d.live = []) (hsd : d.state_node < d.arena.length) :
    (∀ out, expvalCore d os ws ps = .ok out →
      (out.dev.state_node = d.state_node ∧ stateTensor out.dev = stateTensor d ∧
       stateRank out.dev = stateRank d ∧ out.dev.free_edges = d.free_edges ∧
       out.dev.live = []) ∧
      ∃ out2, expvalCore out.dev os ws ps = .ok out2 ∧ out2.value = out.value) ∧
    (∀ r, varCore d os ws ps = .ok r →
      (r.2.state_node = d.state_node ∧ stateTensor r.2 = stateTensor d ∧
       stateRank r.2 = stateRank d ∧ r.2.free_edges = d.free_edges ∧ r.2.live = []) ∧
      ∃ r2, varCore r.2 os ws ps = .ok r2 ∧ r2.1 = r.1) ∧
    (∀ s, sampleCore d os ws ps picks = .ok s →
      (s.2.state_node = d.state_node ∧ stateTensor s.2 = stateTensor d ∧
       stateRank s.2 = stateRank d ∧ s.2.free_edges = d.free_edges ∧ s.2.live = []) ∧
      ∃ s2, sampleCore s.2 os ws ps picks = .ok s2 ∧ s2.1 = s.1) := by
  have hsimrfl : RegSim d d := ⟨hld, hsd, rfl, rfl, rfl, rfl⟩
  refine ⟨?_, ?_, ?_⟩
  · intro out h
    obtain ⟨out', h', hv', hsn', hsh', hnw', hfe', hlv', hψ', hrk', hlt'⟩ :=
      expvalCore_transport d d os ws ps out hld hsd hsimrfl h
    rw [h] at h'
    injection h' with he
    subst he
    refine ⟨⟨hsn', hψ', hrk', hfe', hlv'⟩, ?_⟩
    obtain ⟨out2, h2, hv2, -, -, -, -, -, -, -, -⟩ :=
      expvalCore_transport d out.dev os ws ps out hld hsd
        ⟨hlv', hlt', hnw', hsh', hrk', hψ'⟩ h
    exact ⟨out2, h2, hv2⟩
  · intro r h
    obtain ⟨r', h', hv', hsn', hsh', hnw', hfe', hlv', hψ', hrk', hlt'⟩ :=
      varCore_transport d d os ws ps r hld hsd hsimrfl h
    rw [h] at h'
    injection h' with he
    subst he
    refine ⟨⟨hsn', hψ', hrk', hfe', hlv'⟩, ?_⟩
    obtain ⟨r2, h2, hv2, -, -, -, -, -, -, -, -⟩ :=
      varCore_transport d r.2 os ws ps r hld hsd
        ⟨hlv', hlt', hnw', hsh', hrk', hψ'⟩ h
    exact ⟨r2, h2, hv2⟩
  · intro s h
    obtain ⟨s', h', hv', hsn', hsh', hnw', hfe', hlv', hψ', hrk', hlt'⟩ :=
      sampleCore_transport d d os ws ps picks s hld hsd hsimrfl h
    rw [h] at h'
    injection h' with he
    subst he
    refine ⟨⟨hsn', hψ', hrk', hfe', hlv'⟩, ?_⟩
    obtain ⟨s2, h2, hv2, -, -, -, -, -, -, -, -⟩ :=
      sampleCore_transport d s.2 os ws ps picks s hld hsd
        ⟨hlv', hlt', hnw', hsh', hrk', hψ'⟩ h
    exact ⟨s2, h2, hv2⟩

/-- C2: the measurement engines only read the State Register.  On any device
in the clean inter-measurement configuration (no live edges, valid register
handle), every successful `expval`, `var` or `sample` call hands back a
device on which the State Register node is unchanged — same handle, same
tensor, same rank, free-edge table untouched and all register legs dangling
again — and a second identical measurement call on that device succeeds with
the same value (for `sample`, with the same randomness stream, the same
draws). -/
theorem claim2_measurement_readonly (d : Device) (a : MeasArg) (picks : Nat → Nat)
    (hlive : d.live = []) (hsn : d.state_node < d.arena.length) :
    (∀ out, expval d a = .ok out →
      (out.dev.state_node = d.state_node ∧ stateTensor out.dev = stateTensor d ∧
       stateRank out.dev = stateRank d ∧ out.dev.free_edges = d.free_edges ∧
       out.dev.live = []) ∧
      ∃ out2, expval out.dev a = .ok out2 ∧ out2.value = out.value) ∧
    (∀ r, var d a = .ok r →
      (r.2.state_node = d.state_node ∧ stateTensor r.2 = stateTensor d ∧
       stateRank r.2 = stateRank d ∧ r.2.free_edges = d.free_edges ∧ r.2.live = []) ∧
      ∃ r2, var r.2 a = .ok r2 ∧ r2.1 = r.1) ∧
    (∀ s, sample d a picks = .ok s →
      (s.2.state_node = d.state_node ∧ stateTensor s.2 = stateTensor d ∧
       stateRank s.2 = stateRank d ∧ s.2.free_edges = d.free_edges ∧ s.2.live = []) ∧
      ∃ s2, sample s.2 a picks = .ok s2 ∧ s2.1 = s.1) := by
  cases a with
  | single o w p => exact meas_readonly_core d [o] [w] [p] picks hlive hsn
  | multi os ws ps => exact meas_readonly_core d os ws ps picks hlive hsn

/-- Witness for C2: a fresh one-wire device satisfies the hypotheses, a
concrete PauliZ `expval` call on it succeeds, and the claim instantiated
there gives register preservation and an identical second call. -/
theorem claim2_witness :
    (initDevice 1 1000).live = [] ∧
    (initDevice 1 1000).state_node < (initDevice 1 1000).arena.length ∧
    (∃ out, expval (initDevice 1 1000) (.multi ["PauliZ"] [[0]] [[]]) = .ok out) ∧
    (∀ out, expval (initDevice 1 1000) (.multi ["PauliZ"] [[0]] [[]]) = .ok out →
      (out.dev.state_node = (initDevice 1 1000).state_node ∧
       stateTensor out.dev = stateTensor (initDevice 1 1000) ∧
       stateRank out.dev = stateRank (initDevice 1 1000) ∧
       out.dev.free_edges = (initDevice 1 1000).free_edges ∧
       out.dev.live = []) ∧
      ∃ out2, expval out.dev (.multi ["PauliZ"] [[0]] [[]]) = .ok out2 ∧
        out2.value = out.value) :=
  ⟨rfl, by decide, ⟨_, rfl⟩,
    (claim2_measurement_readonly (initDevice 1 1000) (.multi ["PauliZ"] [[0]] [[]])
      (fun _ => 0) rfl (by decide)).1⟩

end TN
